import Mathlib

/-!
Verification of the VAPI-to-Langflow workflow converter.

The definitions below are a shallow embedding of the converter found in
`vapi_to_langflow_realnode_converter.py` (the multi-node "real node"
converter) and of the consolidated prompt builder found in
`agent_management/vapi_converter/unified_agent_builder.py`.

Modelling conventions:
* JSON dictionaries keyed by strings become association lists
  (`List (String × _)`); Python `dict` insertion/overwrite semantics are
  mirrored by `dictInsert`.
* A Python value that may be absent becomes an `Option`; Python truthiness
  of strings/lists is an explicit emptiness test.
* `uuid.uuid4()` is modelled by an identity-generation hook: the node-id
  hook `gen : Nat → String` (drawn through a counter exactly where
  `_clone_component` draws a uuid) and, separately, the top-level flow id
  `flowId : String` (drawn directly inside `convert`).
* Uncaught Python exceptions become `Except.error`; exceptions caught by
  the per-node `try/except` in `convert` become a skipped node.
* Python `set` iteration (terminal-node wiring) is modelled in id-map
  insertion order; only the order of the emitted terminal edges depends on
  this choice.
-/

namespace Vapi

/-- A VAPI edge condition (`edge.condition`): `type` and `prompt` fields. -/
structure VCondition where
  ctype : Option String
  cprompt : Option String
deriving DecidableEq, Repr

/-- A VAPI edge: `from`, `to` and optional `condition`. -/
structure VEdge where
  src : String
  dst : String
  cond : Option VCondition
deriving DecidableEq, Repr

/-- One entry of `variableExtractionPlan.output`. -/
structure VVar where
  title : String
  descr : String
  vtype : String
  options : Option (List String)
deriving DecidableEq, Repr

/-- A VAPI workflow node.  `varOutputs = some l` models a present (truthy)
`variableExtractionPlan` whose `output` list is `l`; `none` models an absent
or empty (falsy) plan. -/
structure VNode where
  name : String
  ntype : String
  nprompt : String
  isStart : Bool
  firstMessage : Option String
  varOutputs : Option (List VVar)
  toolType : Option String
  mpos : Option (Int × Int)
deriving DecidableEq, Repr

/-- A VAPI workflow: name, node list and edge list (declaration order). -/
structure VGraph where
  wname : String
  nodes : List VNode
  edges : List VEdge
deriving DecidableEq, Repr

/-- A configuration-field value inside a Langflow component template. -/
inductive FVal where
  | s : String → FVal
  | b : Bool → FVal
  | i : Int → FVal
deriving DecidableEq, Repr

/-- A component template from the template library: display name plus the
`data.node.template` configuration-field map (field name ↦ `value`). -/
structure Template where
  displayName : String
  fields : List (String × FVal)
deriving DecidableEq, Repr

/-- The component template library: component type ↦ template, in extraction
order (first occurrence wins, like the Python dict). -/
abbrev Library := List (String × Template)

/-- A generated Langflow node. -/
structure FlowNode where
  id : String
  ctype : String
  displayName : String
  fields : List (String × FVal)
  descr : Option String
  pos : Int × Int
deriving DecidableEq, Repr

/-- A generated Langflow edge: ids plus the handle names actually used
(`sourceHandle.name` and `targetHandle.fieldName`), and the optional
`vapiCondition` metadata (normalised `type`/`prompt`). -/
structure FlowEdge where
  source : String
  target : String
  soutName : String
  tinField : String
  vapiCond : Option (String × String)
deriving DecidableEq, Repr

/-- The `data` object of a generated flow. -/
structure FlowData where
  nodes : List FlowNode
  edges : List FlowEdge
deriving DecidableEq, Repr

/-- A generated Langflow flow document. -/
structure Flow where
  fname : String
  fdescr : String
  fid : String
  fdata : FlowData
deriving DecidableEq, Repr

/-- Python `dict` assignment `m[k] = v`: overwrite in place or append. -/
def dictInsert (m : List (String × String)) (k v : String) : List (String × String) :=
  if (m.lookup k).isSome then m.map (fun p => if p.1 = k then (k, v) else p)
  else m ++ [(k, v)]

/-- Python truthiness of an optional string (`None` and `""` are falsy). -/
def optTruthy (o : Option String) : Bool :=
  match o with
  | none => false
  | some s => s ≠ ""

end Vapi

namespace Vapi

/-! ## UnifiedAgentBuilder (`unified_agent_builder.py`) -/

/-- The fixed header of the unified system prompt (`build_system_prompt`,
step 1). -/
def promptHeader : List String :=
  ["You are a unified voice AI assistant. Your goal is to handle the entire conversation flow defined below.",
   "You must strictly follow the state transitions and instructions for each node.",
   "Maintain the persona and tone defined in the \x27start\x27 node throughout the conversation.",
   "\n--- GLOBAL INSTRUCTIONS ---",
   "1. **State Management**: You are always in one specific \x27Node\x27 of the conversation.",
   "2. **Transitions**: After each user response, check the \x27Transitions\x27 for your current node. If a condition is met, move to the next node immediately.",
   "3. **Responses**: Speak ONLY the \x27Prompt\x27 for your current node. Do not make up text outside the instructions.",
   "4. **Variable Extraction**: If the current node requires variable extraction, output the JSON at the end of your response.",
   "\n--- CONVERSATION FLOW ---"]

/-- The fixed footer of the unified system prompt (`build_system_prompt`,
step 3). -/
def promptFooter : List String :=
  ["\n--- RESPONSE FORMAT ---",
   "For every turn, your output must be:",
   "1. Your conversational response (text).",
   "2. (If applicable) A JSON block with extracted variables.",
   "3. (Internal Thought) [State: <Current_Node> -> <Next_Node>]"]

/-- One `- title: description (Options: …)` variable line. -/
def varLine (v : VVar) : String :=
  let line := "- " ++ v.title ++ ": " ++ v.descr
  match v.options with
  | some (e :: es) => line ++ " (Options: " ++ String.intercalate ", " (e :: es) ++ ")"
  | _ => line

/-- One `- IF … -> GOTO Node: …` transition line. -/
def transitionLine (e : VEdge) : String :=
  let condDesc :=
    match e.cond with
    | none => "Default/Always"
    | some c => c.cprompt.getD "Default/Always"
  "- IF " ++ condDesc ++ " -> GOTO Node: " ++ e.dst

/-- The body of the `for node in self.nodes` loop of `build_system_prompt`,
translated statement by statement (each conditional `prompt.append`). -/
def promptStep (edges : List VEdge) (acc : List String) (node : VNode) : List String :=
  let acc := acc ++ ["\n## NODE: " ++ node.name]
  let acc :=
    if node.isStart then
      match node.firstMessage with
      | some fm => if fm ≠ "" then acc ++ ["**STARTING MESSAGE**: \"" ++ fm ++ "\""] else acc
      | none => acc
    else acc
  let acc := if node.nprompt ≠ "" then acc ++ ["**INSTRUCTION**: " ++ node.nprompt] else acc
  let acc :=
    match node.varOutputs with
    | some outs => (acc ++ ["**VARIABLES TO EXTRACT**:"]) ++ outs.map varLine
    | none => acc
  let outgoing := edges.filter (fun e => e.src = node.name)
  if outgoing.isEmpty then acc ++ ["**TRANSITIONS**: End of conversation (Hang up or wait)."]
  else (acc ++ ["**TRANSITIONS**:"]) ++ outgoing.map transitionLine

/-- `build_system_prompt`: the prompt is accumulated as a list of strings
(header, then the per-node loop, then the footer) and joined with
newlines. -/
def buildSystemPrompt (g : VGraph) : String :=
  String.intercalate "\n" (g.nodes.foldl (promptStep g.edges) promptHeader ++ promptFooter)

/-- Specification-side: the first-message directive, rendered exactly when
the node carries `isStart` and has a (truthy) first message. -/
def startingBlock (node : VNode) : List String :=
  if node.isStart ∧ optTruthy node.firstMessage then
    ["**STARTING MESSAGE**: \"" ++ node.firstMessage.getD "" ++ "\""]
  else []

/-- Specification-side: the transition lines of a node, one `IF … -> GOTO …`
line per outgoing edge in edge declaration order, or the end-of-conversation
marker when there is no outgoing edge. -/
def transitionsBlock (edges : List VEdge) (node : VNode) : List String :=
  match edges.filter (fun e => e.src = node.name) with
  | [] => ["**TRANSITIONS**: End of conversation (Hang up or wait)."]
  | out => "**TRANSITIONS**:" :: out.map transitionLine

/-- Specification-side rendering of one node section, following the spec's
description: name, first message only for the start node, raw prompt when
present, variable block, transitions (or end-of-conversation marker). -/
def specNodeSection (edges : List VEdge) (node : VNode) : List String :=
  ["\n## NODE: " ++ node.name]
  ++ startingBlock node
  ++ (if node.nprompt ≠ "" then ["**INSTRUCTION**: " ++ node.nprompt] else [])
  ++ (match node.varOutputs with
      | some outs => "**VARIABLES TO EXTRACT**:" :: outs.map varLine
      | none => [])
  ++ transitionsBlock edges node

/-! ## The multi-node converter (`vapi_to_langflow_realnode_converter.py`) -/

/-- `key in template`. -/
def hasField (fields : List (String × FVal)) (k : String) : Bool :=
  (fields.lookup k).isSome

/-- `template[k]["value"] = v` when `k` is known to be present (a no-op on
absent keys; callers guard with `hasField` or use `strictSet`). -/
def setFieldIfPresent (fields : List (String × FVal)) (k : String) (v : FVal) :
    List (String × FVal) :=
  fields.map (fun p => if p.1 = k then (k, v) else p)

/-- `template[k]["value"] = v` with Python `KeyError` semantics: fails when
the field is absent. -/
def strictSet (fields : List (String × FVal)) (k : String) (v : FVal) :
    Except String (List (String × FVal)) :=
  if hasField fields k then .ok (setFieldIfPresent fields k v)
  else .error ("KeyError: " ++ k)

/-- `component_type in self.component_library`. -/
def libHas (lib : Library) (t : String) : Bool :=
  (lib.lookup t).isSome

/-- `_clone_component`: deep-copy the template and give it a fresh id
`f"{component_type}-{uuid.uuid4().hex[:5]}"`; the uuid draw is the
identity-generation hook `gen` applied to the running counter.  Returns
`none` (a `ValueError` in the source) when the type is not in the
library. -/
def cloneComponent (lib : Library) (ctype : String) (gen : Nat → String) (k : Nat) :
    Option (FlowNode × Nat) :=
  match lib.lookup ctype with
  | none => none
  | some t => some (⟨ctype ++ "-" ++ gen k, ctype, t.displayName, t.fields, none, (0, 0)⟩, k + 1)

/-- One line of the variable-extraction JSON schema in
`_convert_vapi_node`. -/
def jsonSchemaLine (v : VVar) : String :=
  match v.options.getD [] with
  | e :: es =>
    "  \"" ++ v.title ++ "\": \"" ++ e ++ "\" // Options: "
      ++ String.intercalate ", " (e :: es) ++ "\n"
  | [] => "  \"" ++ v.title ++ "\": \"<" ++ v.vtype ++ ">\" // " ++ v.descr ++ "\n"

/-- The JSON schema block built in `_convert_vapi_node`. -/
def jsonSchema (outs : List VVar) : String :=
  "\x7b\n" ++ String.join (outs.map jsonSchemaLine) ++ "\x7d"

/-- The prompt synthesised for a conversation node in `_convert_vapi_node`:
raw prompt, optional first-message directive prepended, optional
variable-extraction block appended. -/
def conversationPrompt (node : VNode) : String :=
  let prompt := node.nprompt
  let prompt :=
    match node.firstMessage with
    | some fm =>
      if fm ≠ "" then
        "FIRST MESSAGE: When starting the conversation or when this node is first reached, begin by saying:\n\""
          ++ fm ++ "\"\n\nThen continue with your role:\n" ++ prompt
      else prompt
    | none => prompt
  match node.varOutputs with
  | some outs =>
    if outs.isEmpty then prompt
    else
      prompt
        ++ "\n\nIMPORTANT: After your response, you MUST extract the following information and output it as JSON:\n"
        ++ jsonSchema outs ++ "\n\n"
        ++ "Variables to extract: " ++ String.intercalate ", " (outs.map (·.title)) ++ "\n"
        ++ "Format: First provide your conversational response, then on a new line output ONLY the JSON object with extracted values."
  | none => prompt

/-- Component-type selection for a conversation node: `Agent` if available,
else `OpenAIModel`, else the first library key. -/
def pickConversationType (lib : Library) : Option String :=
  let ct := if libHas lib "Agent" then "Agent" else "OpenAIModel"
  if libHas lib ct then some ct else lib.head?.map (·.1)

/-- Component-type selection for a tool node: `ChatOutput` if available,
else the first library key. -/
def pickToolType (lib : Library) : Option String :=
  if libHas lib "ChatOutput" then some "ChatOutput" else lib.head?.map (·.1)

/-- `system_message` / `system_prompt` / `prompt` elif chain. -/
def setPromptField (fields : List (String × FVal)) (prompt : String) :
    List (String × FVal) :=
  if hasField fields "system_message" then setFieldIfPresent fields "system_message" (.s prompt)
  else if hasField fields "system_prompt" then setFieldIfPresent fields "system_prompt" (.s prompt)
  else if hasField fields "prompt" then setFieldIfPresent fields "prompt" (.s prompt)
  else fields

/-- Guarded API-key injection (`if self.openai_api_key and 'api_key' in template`). -/
def injectApiKey (fields : List (String × FVal)) (apiKey : String) :
    List (String × FVal) :=
  if apiKey ≠ "" ∧ hasField fields "api_key" then setFieldIfPresent fields "api_key" (.s apiKey)
  else fields

/-- `_convert_vapi_node`: clone a component for one VAPI node and fill in
its dynamic fields.  Returns `none` when the clone raises (only possible
with an empty library, in which case `convert` catches the exception and
skips the node). -/
def convertVapiNode (lib : Library) (apiKey : String) (node : VNode) (idx : Nat)
    (gen : Nat → String) (k : Nat) : Option (FlowNode × Nat) :=
  let pos : Int × Int :=
    match node.mpos with
    | some p => p
    | none => (-400 + (idx : Int) * 300, 100)
  if node.ntype = "conversation" then
    match pickConversationType lib with
    | none => none
    | some ct =>
      match cloneComponent lib ct gen k with
      | none => none
      | some (n, k1) =>
        let fields := setPromptField n.fields (conversationPrompt node)
        let fields := injectApiKey fields apiKey
        some ({ n with fields := fields, pos := pos }, k1)
  else if node.ntype = "tool" then
    match pickToolType lib with
    | none => none
    | some ct =>
      match cloneComponent lib ct gen k with
      | none => none
      | some (n, k1) =>
        some ({ n with descr := some ("Tool: " ++ node.toolType.getD "unknown"), pos := pos }, k1)
  else
    match lib.head?.map (·.1) with
    | none => none
    | some ct =>
      match cloneComponent lib ct gen k with
      | none => none
      | some (n, k1) => some ({ n with pos := pos }, k1)

/-- Accumulator of the per-node conversion loop in `convert`. -/
structure NodeAcc where
  flowNodes : List FlowNode
  idMap : List (String × String)
  k : Nat
deriving DecidableEq, Repr

/-- One iteration of the per-node conversion loop: skip orphans (no
incoming edge and not the FIRST declared node), then convert, appending the
new node and recording the id-map entry; a failed conversion is caught and
skipped. -/
def nodePhaseStep (lib : Library) (apiKey : String) (gen : Nat → String)
    (tgts : List String) (startName : Option String) (acc : NodeAcc) (p : Nat × VNode) :
    NodeAcc :=
  let (i, node) := p
  if node.name ∈ tgts ∨ startName = some node.name then
    match convertVapiNode lib apiKey node i gen acc.k with
    | none => acc
    | some (n, k1) =>
      { flowNodes := acc.flowNodes ++ [n], idMap := dictInsert acc.idMap node.name n.id, k := k1 }
  else acc

/-- State after the node-creation part of `convert`. -/
structure Assembled where
  flowNodes : List FlowNode
  idMap : List (String × String)
  chatInputId : Option String
  chatOutputId : Option String
  k : Nat
deriving DecidableEq, Repr

/-- `max([n["position"]["x"] ...], default=0)`. -/
def maxXOf (ns : List FlowNode) : Int :=
  match ns with
  | [] => 0
  | h :: t => t.foldl (fun m n => max m n.pos.1) h.pos.1

/-- The ChatInput-adapter part of `convert` (cloned when the template
exists, with its fixed position). -/
def ciPart (lib : Library) (gen : Nat → String) : List FlowNode × Option String × Nat :=
  match cloneComponent lib "ChatInput" gen 0 with
  | some (n, k) => ([{ n with pos := (-800, 0) : FlowNode }], some n.id, k)
  | none => ([], none, 0)

/-- The per-node conversion loop of `convert`. -/
def convertedPart (lib : Library) (apiKey : String) (gen : Nat → String) (g : VGraph)
    (k0 : Nat) : NodeAcc :=
  g.nodes.enum.foldl
    (nodePhaseStep lib apiKey gen (g.edges.map (·.dst)) (g.nodes.head?.map (·.name)))
    ⟨[], [], k0⟩

/-- The ChatOutput-adapter part of `convert` (positioned after the
right-most node created so far). -/
def coPart (lib : Library) (gen : Nat → String) (prior : List FlowNode) (k : Nat) :
    List FlowNode × Option String × Nat :=
  match cloneComponent lib "ChatOutput" gen k with
  | some (n, k1) => ([{ n with pos := (maxXOf prior + 400, 0) : FlowNode }], some n.id, k1)
  | none => ([], none, k)

/-- The node-creation part of `convert`: ChatInput adapter, per-node
conversion with orphan skipping, ChatOutput adapter. -/
def nodePhase (lib : Library) (apiKey : String) (gen : Nat → String) (g : VGraph) :
    Assembled :=
  let ci := ciPart lib gen
  let accF := convertedPart lib apiKey gen g ci.2.2
  let co := coPart lib gen (ci.1 ++ accF.flowNodes) accF.k
  ⟨ci.1 ++ accF.flowNodes ++ co.1, accF.idMap, ci.2.1, co.2.1, co.2.2⟩

/-! ### Branch detection and BFS depth calculation -/

/-- One step of the outgoing-edge grouping in `_find_branching_nodes`
(edges with a falsy `from` are skipped). -/
def addOutgoing (acc : List (String × List VEdge)) (e : VEdge) : List (String × List VEdge) :=
  if e.src = "" then acc
  else if (acc.lookup e.src).isSome then
    acc.map (fun p => if p.1 = e.src then (p.1, p.2 ++ [e]) else p)
  else acc ++ [(e.src, [e])]

/-- `_find_branching_nodes`: group outgoing edges by `from` (first-occurrence
order) and keep the groups with at least two members. -/
def findBranchingNodes (edges : List VEdge) : List (String × List VEdge) :=
  (edges.foldl addOutgoing []).filter (fun p => 2 ≤ p.2.length)

/-- One step of the adjacency-list construction in `_calculate_node_depths`
(edges with a falsy endpoint are skipped). -/
def addAdj (acc : List (String × List String)) (e : VEdge) : List (String × List String) :=
  if e.src = "" ∨ e.dst = "" then acc
  else if (acc.lookup e.src).isSome then
    acc.map (fun p => if p.1 = e.src then (p.1, p.2 ++ [e.dst]) else p)
  else acc ++ [(e.src, [e.dst])]

/-- The adjacency list built in `_calculate_node_depths`. -/
def buildAdjacency (edges : List VEdge) : List (String × List String) :=
  edges.foldl addAdj []

/-- `graph.get(current, [])`. -/
def nbrs (adj : List (String × List String)) (x : String) : List String :=
  (adj.lookup x).getD []

/-- Visiting one neighbour inside the BFS loop: record depth `dcur + 1` and
enqueue, unless already visited. -/
def bfsVisit (dcur : Nat) (st : List (String × Nat) × List String) (nb : String) :
    List (String × Nat) × List String :=
  if (st.1.lookup nb).isSome then st else (st.1 ++ [(nb, dcur + 1)], st.2 ++ [nb])

/-- The BFS `while queue:` loop; explicit fuel (see
`calculateNodeDepths`: `1 + edges.length` pops always suffice because each
name is enqueued at most once). -/
def bfsAux (adj : List (String × List String)) :
    Nat → List (String × Nat) → List String → List (String × Nat)
  | 0, depths, _ => depths
  | _ + 1, depths, [] => depths
  | fuel + 1, depths, cur :: rest =>
    let dcur := (depths.lookup cur).getD 0
    let st := (nbrs adj cur).foldl (bfsVisit dcur) (depths, rest)
    bfsAux adj fuel st.1 st.2

/-- Start-node selection of `_calculate_node_depths`: the first node marked
`isStart`, else the first declared node, else none. -/
def startNodeOf (nodes : List VNode) : Option VNode :=
  match nodes.filter (·.isStart) with
  | n :: _ => some n
  | [] => nodes.head?

/-- `_calculate_node_depths`: BFS from the start node. -/
def calculateNodeDepths (nodes : List VNode) (edges : List VEdge) : List (String × Nat) :=
  match startNodeOf nodes with
  | none => []
  | some s => bfsAux (buildAdjacency edges) (1 + edges.length) [(s.name, 0)] [s.name]

/-- The first-level branching points (`depth ≤ MAX_ROUTING_DEPTH = 1`,
missing depth treated as 999); the remaining branch points are the nested
ones and keep their direct edges. -/
def firstLevelBranching (g : VGraph) : List (String × List VEdge) :=
  (findBranchingNodes g.edges).filter
    (fun p => ((calculateNodeDepths g.nodes g.edges).lookup p.1).getD 999 ≤ 1)

/-! ### Routing compilation -/

/-- The shape of one routing sub-graph (`routing_pattern` plus the gate
ids). -/
inductive RPattern where
  | simple (gateId : String)
  | cascade (gateIds : List String)
deriving DecidableEq, Repr

/-- One `self._routing_components[source_name]` entry. -/
structure RoutingInfo where
  sourceName : String
  routerAgentId : String
  redges : List VEdge
  numBranches : Nat
  pattern : RPattern
deriving DecidableEq, Repr

/-- `condition.get('prompt', f'Condition {i}')` over an optional condition
dict. -/
def conditionText (i : Nat) (c : Option VCondition) : String :=
  match c with
  | none => "Condition " ++ toString i
  | some cc => cc.cprompt.getD ("Condition " ++ toString i)

/-- The decision-agent instruction prompt built in `_create_router_agent`:
all conditions numbered `1..k` in original order followed by the strict
digit-only output contract. -/
def routingPrompt (conds : List (Option VCondition)) : String :=
  let conditionTexts :=
    conds.enum.map (fun p => toString (p.1 + 1) ++ ". " ++ conditionText (p.1 + 1) p.2)
  "ROUTING DECISION - CRITICAL FORMAT REQUIREMENT\n\nCONDITIONS:\n"
    ++ String.intercalate "\n" conditionTexts
    ++ "\n\nYOUR RESPONSE FORMAT (CRITICAL):\n━━━━━━━━━━━━━━━━━━━━━━━━━━━━━━━━━━\nResponse MUST be EXACTLY this format:\n[DIGIT]\n\nWhere [DIGIT] is 1, 2, 3, etc. based on which condition matches.\n\nCORRECT examples:\n1\n2\n3\n\nWRONG examples (DO NOT USE):\n- \"1\" (with quotes)\n- \"The answer is 1\"\n- \"Route to 1\"\n- \"1 - User wants appointment\"\n- \"Based on analysis, I choose option 1\"\n\nINSTRUCTIONS:\n1. Read the user\x27s message carefully\n2. Match it to the BEST condition above\n3. Output ONLY the digit (no other text)\n4. Stop immediately\n\nYour response (digit only):"

/-- `_create_router_agent`: clone an `Agent` (raising when the template is
missing), install the routing prompt and API key, set position and display
name. -/
def createRouterAgent (lib : Library) (apiKey : String) (sourceName : String)
    (conds : List (Option VCondition)) (pos : Int × Int) (gen : Nat → String) (k : Nat) :
    Except String (FlowNode × Nat) :=
  match cloneComponent lib "Agent" gen k with
  | none => .error "Agent template required for routing"
  | some (r, k1) =>
    let p := routingPrompt conds
    let fields :=
      if hasField r.fields "system_message" then setFieldIfPresent r.fields "system_message" (.s p)
      else if hasField r.fields "system_prompt" then setFieldIfPresent r.fields "system_prompt" (.s p)
      else if hasField r.fields "agent_description" then setFieldIfPresent r.fields "agent_description" (.s p)
      else r.fields
    let fields := injectApiKey fields apiKey
    let dn := "Router (" ++ sourceName ++ ")"
    .ok ({ r with fields := fields, pos := pos, displayName := dn }, k1)

/-- `_create_conditional_router`: clone a `ConditionalRouter` (raising when
the template is missing) and configure it: case-insensitive `contains`
match on the digit string of `conditionIndex`, `false_result` default
route. -/
def createConditionalRouter (lib : Library) (conditionIndex : Nat)
    (pos : Int × Int) (branchName : String) (gen : Nat → String) (k : Nat) :
    Except String (FlowNode × Nat) := do
  match cloneComponent lib "ConditionalRouter" gen k with
  | none => .error "ConditionalRouter template not available"
  | some (r, k1) =>
    let f ← strictSet r.fields "operator" (.s "contains")
    let f ← strictSet f "match_text" (.s (toString conditionIndex))
    let f ← strictSet f "case_sensitive" (.b false)
    let f ← strictSet f "max_iterations" (.i 10)
    let f ← strictSet f "default_route" (.s "false_result")
    let dn := if branchName ≠ "" then "Route Check (" ++ branchName ++ ")" else r.displayName
    .ok ({ r with fields := f, pos := pos, displayName := dn }, k1)

/-- The body of the cascade `for i in range(num_branches - 1)` loop of
`_insert_routing_logic`: create the gate for condition `i + 1` (displaying
the `i`-th target name) and append it. -/
def cascadeStep (lib : Library) (edgesToTargets : List VEdge) (pos : Int × Int)
    (gen : Nat → String) (st : List FlowNode × List String × Nat) (i : Nat) :
    Except String (List FlowNode × List String × Nat) := do
  let targetName :=
    match edgesToTargets.get? i with
    | some e => e.dst
    | none => "branch_" ++ toString (i + 1)
  let (cr, k2) ← createConditionalRouter lib (i + 1)
    (pos.1 + 600 + 300 * (i : Int), pos.2 + 150 * (i : Int)) targetName gen st.2.2
  pure (st.1 ++ [cr], st.2.1 ++ [cr.id], k2)

/-- `_insert_routing_logic`: one decision agent plus a single gate (k = 2)
or a cascade of k − 1 gates (k ≥ 3), together with the registry entry used
later for edge wiring. -/
def insertRoutingLogic (lib : Library) (apiKey : String) (sourceName : String)
    (edgesToTargets : List VEdge) (pos : Int × Int) (gen : Nat → String) (k : Nat) :
    Except String (List FlowNode × RoutingInfo × Nat) := do
  let conds := edgesToTargets.map (·.cond)
  let (ra, k1) ← createRouterAgent lib apiKey sourceName conds (pos.1 + 300, pos.2) gen k
  let numBranches := edgesToTargets.length
  if numBranches = 2 then
    let (cr, k2) ←
      createConditionalRouter lib 1 (pos.1 + 600, pos.2) (sourceName ++ "_branch") gen k1
    .ok ([ra, cr], ⟨sourceName, ra.id, edgesToTargets, numBranches, .simple cr.id⟩, k2)
  else
    let st ← (List.range (numBranches - 1)).foldlM (cascadeStep lib edgesToTargets pos gen)
      (([] : List FlowNode), ([] : List String), k1)
    .ok (ra :: st.1, ⟨sourceName, ra.id, edgesToTargets, numBranches, .cascade st.2.1⟩, st.2.2)

/-- Result of the routing-insertion loop of `convert`. -/
structure RoutingResult where
  newNodes : List FlowNode
  registry : List RoutingInfo
  k : Nat
deriving DecidableEq, Repr

/-- One iteration of the routing-insertion loop of `convert`: look up the
branch source in the id-map (warn and skip when absent), find its node in
the current flow, insert the routing sub-graph. -/
def routingStep (lib : Library) (apiKey : String) (gen : Nat → String)
    (asm : Assembled) (st : RoutingResult) (p : String × List VEdge) :
    Except String RoutingResult := do
  match asm.idMap.lookup p.1 with
  | none => pure st
  | some sid =>
    match (asm.flowNodes ++ st.newNodes).find? (fun n => n.id = sid) with
    | none => pure st
    | some srcNode => do
      let (nodes, info, k1) ← insertRoutingLogic lib apiKey p.1 p.2 srcNode.pos gen st.k
      pure ⟨st.newNodes ++ nodes, st.registry ++ [info], k1⟩

/-- The routing-insertion loop of `convert`: for every first-level branching
point whose source was converted (and found in the flow), insert the routing
sub-graph; sources missing from the id-map are skipped with a warning. -/
def routingPhase (lib : Library) (apiKey : String) (gen : Nat → String)
    (asm : Assembled) (firstLevel : List (String × List VEdge)) :
    Except String RoutingResult :=
  firstLevel.foldlM (routingStep lib apiKey gen asm) (⟨[], [], asm.k⟩ : RoutingResult)

/-- The gate ids of a routing pattern. -/
def gateIds : RPattern → List String
  | .simple gid => [gid]
  | .cascade gids => gids

/-- The decision-gate configuration installed by
`_create_conditional_router` for condition number `idx`. -/
def gateSpec (r : FlowNode) (idx : Nat) : Prop :=
  r.ctype = "ConditionalRouter" ∧
  r.fields.lookup "operator" = some (.s "contains") ∧
  r.fields.lookup "match_text" = some (.s (toString idx)) ∧
  r.fields.lookup "case_sensitive" = some (.b false) ∧
  r.fields.lookup "default_route" = some (.s "false_result")

/-- The library holds a `ConditionalRouter` template carrying the five
fields `_create_conditional_router` writes. -/
def condRouterOK (lib : Library) : Bool :=
  match lib.lookup "ConditionalRouter" with
  | none => false
  | some t =>
    hasField t.fields "operator" && hasField t.fields "match_text" &&
    hasField t.fields "case_sensitive" && hasField t.fields "max_iterations" &&
    hasField t.fields "default_route"

/-- Per-entry characterisation of the routing registry: the entry belongs
to a first-level branch point found in the id-map, its decision agent and
its gates are among the created routing nodes, and gate `j` (0-based) is
configured for condition number `j + 1`. -/
structure registryEntryOK (asm : Assembled) (p : String × List VEdge) (info : RoutingInfo)
    (newNodes : List FlowNode) : Prop where
  sname : info.sourceName = p.1
  redges : info.redges = p.2
  nb : info.numBranches = p.2.length
  mapped : (asm.idMap.lookup p.1).isSome = true
  agent : ∃ ra, ra ∈ newNodes ∧ ra.id = info.routerAgentId ∧ ra.ctype = "Agent"
  glen : (gateIds info.pattern).length = p.2.length - 1
  simple2 : p.2.length = 2 → ∃ gid, info.pattern = .simple gid
  cascade2 : p.2.length ≠ 2 → ∃ gids, info.pattern = .cascade gids
  gatesOK : ∀ j (hj : j < (gateIds info.pattern).length),
    ∃ gnode, gnode ∈ newNodes ∧ gnode.id = (gateIds info.pattern).get ⟨j, hj⟩ ∧
      gateSpec gnode (j + 1)

/-! ### Edge wiring -/

/-- The port information of `_get_component_io_info`, resolved from the id
prefix. -/
structure IOInfo where
  dataType : String
  outName : String
  inField : String
deriving DecidableEq, Repr

/-- `str.startswith(pre)` (char-list prefix test, kernel-reducible). -/
def strStartsWith (s pre : String) : Bool :=
  pre.data.isPrefixOf s.data

/-- `_get_component_io_info`. -/
def getComponentIOInfo (nodeId : String) : IOInfo :=
  if strStartsWith nodeId "ChatInput" then ⟨"ChatInput", "message", "input_value"⟩
  else if strStartsWith nodeId "OpenAIModel" ∨ strStartsWith nodeId "OpenAI" then
    ⟨"OpenAIModel", "text_output", "input_value"⟩
  else if strStartsWith nodeId "Agent" then ⟨"Agent", "response", "input_value"⟩
  else if strStartsWith nodeId "ConditionalRouter" then
    ⟨"ConditionalRouter", "true_result", "input_text"⟩
  else if strStartsWith nodeId "ChatOutput" then ⟨"ChatOutput", "message", "input_value"⟩
  else ⟨"Component", "output", "input_value"⟩

/-- `_create_edge`: handles resolved from the id prefixes; the optional
VAPI condition is carried as normalised metadata when truthy. -/
def createEdge (sourceId targetId : String) (cond : Option VCondition) : FlowEdge :=
  let si := getComponentIOInfo sourceId
  let ti := getComponentIOInfo targetId
  { source := sourceId, target := targetId, soutName := si.outName, tinField := ti.inField,
    vapiCond := cond.map (fun c => (c.ctype.getD "ai", c.cprompt.getD "")) }

/-- `_create_edge_with_specific_output`: like `createEdge` but with an
explicit source output handle (`true_result` / `false_result`). -/
def createEdgeSpecificOutput (sourceId targetId outputName : String) : FlowEdge :=
  let ti := getComponentIOInfo targetId
  { source := sourceId, target := targetId, soutName := outputName, tinField := ti.inField,
    vapiCond := none }

/-- `Connect ChatInput to first node`: the entry adapter is wired to the
target node of the first `isStart` node (or the first declared node),
whenever that node was converted. -/
def chatInputStartEdges (g : VGraph) (asm : Assembled) : List FlowEdge :=
  match asm.chatInputId with
  | none => []
  | some ci =>
    match g.nodes with
    | [] => []
    | n0 :: _ =>
      match asm.idMap.lookup ((g.nodes.find? (·.isStart)).getD n0).name with
      | some fid => [createEdge ci fid none]
      | none => []

/-- The direct-edge loop of `convert`: edges out of a first-level branching
point are suppressed (handled by routing); edges with an unresolvable
endpoint are logged and dropped. -/
def directEdges (g : VGraph) (idMap : List (String × String))
    (firstLevelNames : List String) : List FlowEdge :=
  g.edges.filterMap (fun e =>
    if e.src ∈ firstLevelNames then none
    else
      match idMap.lookup e.src, idMap.lookup e.dst with
      | some fi, some ti => some (createEdge fi ti e.cond)
      | _, _ => none)

/-- The routing edges generated for one registry entry: entry adapter or
source into the decision agent, then the simple or cascade gate wiring.
(The out-of-range accesses `edges_to_targets[0]` / `edges_to_targets[1]`
of the source cannot occur for registry entries built by
`insertRoutingLogic` and are modelled as producing no edge.) -/
def routingEdgesFor (chatInputId : Option String) (startName : Option String)
    (idMap : List (String × String)) (info : RoutingInfo) : List FlowEdge :=
  let sid := (idMap.lookup info.sourceName).getD ""
  let headEdge :=
    if chatInputId.isSome ∧ startName = some info.sourceName then
      [createEdge (chatInputId.getD "") info.routerAgentId none]
    else [createEdge sid info.routerAgentId none]
  match info.pattern with
  | .simple crId =>
    let e1 := [createEdge info.routerAgentId crId none]
    let t1 :=
      match info.redges.get? 0 with
      | some e =>
        match idMap.lookup e.dst with
        | some tid => [createEdgeSpecificOutput crId tid "true_result"]
        | none => []
      | none => []
    let t2 :=
      match info.redges.get? 1 with
      | some e =>
        match idMap.lookup e.dst with
        | some tid => [createEdgeSpecificOutput crId tid "false_result"]
        | none => []
      | none => []
    headEdge ++ e1 ++ t1 ++ t2
  | .cascade gids =>
    let e1 :=
      match gids.head? with
      | some g0 => [createEdge info.routerAgentId g0 none]
      | none => []
    let cascadeEdges := gids.enum.flatMap (fun p =>
      let (i, gid) := p
      let trueEdge :=
        match info.redges.get? i with
        | some e =>
          match idMap.lookup e.dst with
          | some tid => [createEdgeSpecificOutput gid tid "true_result"]
          | none => []
        | none => []
      let falseEdge :=
        if i < gids.length - 1 then
          match gids.get? (i + 1) with
          | some ng => [createEdgeSpecificOutput gid ng "false_result"]
          | none => []
        else
          match info.redges.getLast? with
          | some e =>
            match idMap.lookup e.dst with
            | some tid => [createEdgeSpecificOutput gid tid "false_result"]
            | none => []
          | none => []
      trueEdge ++ falseEdge)
    headEdge ++ e1 ++ cascadeEdges

/-- One iteration of the terminal-wiring loop: skip unreachable terminals;
for a terminal named like `start_node_name`, read `_routing_components`
(an `AttributeError` when no routing was ever inserted), skipping the
start node when it was routed; otherwise wire the terminal to the exit
adapter. -/
def terminalStep (asm : Assembled) (registry : List RoutingInfo) (reachable : List String)
    (startName : Option String) (co : String) (acc : List FlowEdge) (tid : String) :
    Except String (List FlowEdge) :=
  if tid ∉ reachable then pure acc
  else
    let tname := ((asm.idMap.find? (fun q => q.2 = tid)).map (·.1)).getD "unknown"
    if some tname = startName then
      if registry.isEmpty then .error "AttributeError: _routing_components"
      else if registry.any (fun info => info.sourceName = tname) then pure acc
      else pure (acc ++ [createEdge tid co none])
    else pure (acc ++ [createEdge tid co none])

/-- The terminal-wiring pass of `convert`: wire every reachable terminal
target node to the exit adapter.  `start_node_name` is the first-declared
name when no routing was inserted (the binding from the orphan pass) and
the `isStart`-based name otherwise (rebound inside the routing-edge pass). -/
def terminalEdges (g : VGraph) (asm : Assembled) (registry : List RoutingInfo)
    (edgesSoFar : List FlowEdge) : Except String (List FlowEdge) :=
  let startName : Option String :=
    if registry.isEmpty then g.nodes.head?.map (·.name)
    else
      match g.nodes with
      | [] => none
      | n0 :: _ => some (((g.nodes.find? (·.isStart)).getD n0).name)
  let mappedFroms := g.edges.filterMap (fun e => asm.idMap.lookup e.src)
  let terminals := (asm.idMap.map (·.2)).filter (fun i => i ∉ mappedFroms)
  let reachable := edgesSoFar.map (·.target) ++
    (match startName with
     | some sn => (asm.idMap.lookup sn).toList
     | none => [])
  match asm.chatOutputId with
  | none => .ok []
  | some co =>
    if terminals.isEmpty then .ok []
    else terminals.foldlM (terminalStep asm registry reachable startName co) []

/-- The `start_node_name` binding of the routing-edge pass (line rebinding
it from the `isStart` flag). -/
def routeStartName (g : VGraph) : Option String :=
  match g.nodes with
  | [] => none
  | n0 :: _ => some (((g.nodes.find? (·.isStart)).getD n0).name)

/-- `convert`: the full conversion pipeline.  `gen` is the node-identity
hook (the per-clone uuid draws); `flowId` is the top-level flow id drawn
directly inside `convert`.  Uncaught exceptions are `Except.error`. -/
def convert (lib : Library) (apiKey : String) (gen : Nat → String) (flowId : String)
    (g : VGraph) : Except String Flow := do
  let asm := nodePhase lib apiKey gen g
  let firstLevel := firstLevelBranching g
  let rr ← routingPhase lib apiKey gen asm firstLevel
  let e1 := chatInputStartEdges g asm
  let e2 := directEdges g asm.idMap (firstLevel.map (·.1))
  let e3 := rr.registry.flatMap (routingEdgesFor asm.chatInputId (routeStartName g) asm.idMap)
  let e4 ← terminalEdges g asm rr.registry (e1 ++ e2 ++ e3)
  pure { fname := g.wname, fdescr := "Converted from VAPI: " ++ g.wname, fid := flowId,
         fdata := { nodes := asm.flowNodes ++ rr.newNodes, edges := e1 ++ e2 ++ e3 ++ e4 } }

/-- Projection: the id-map produced by the node-creation part of
`convert`. -/
def convertIdMap (lib : Library) (apiKey : String) (gen : Nat → String) (g : VGraph) :
    List (String × String) :=
  (nodePhase lib apiKey gen g).idMap

/-- Projection: the routing registry (`self._routing_components`, as an
explicit value) produced by `convert`. -/
def convertRegistry (lib : Library) (apiKey : String) (gen : Nat → String) (g : VGraph) :
    Except String (List RoutingInfo) :=
  (routingPhase lib apiKey gen (nodePhase lib apiKey gen g) (firstLevelBranching g)).map
    (·.registry)

/-! ### Specification-side notions for the BFS depth computation -/

/-- All adjacency targets of an adjacency list (every name that can ever be
enqueued by the BFS, besides the start name). -/
def adjTargets (adj : List (String × List String)) : List String :=
  adj.flatMap (·.2)

/-- `ReachN adj s x n`: there is a walk of exactly `n` edges from `s` to
`x` in the adjacency list `adj`. -/
inductive ReachN (adj : List (String × List String)) (s : String) : String → Nat → Prop where
  | zero : ReachN adj s s 0
  | succ {x y : String} {n : Nat} (hx : ReachN adj s x n) (hy : y ∈ nbrs adj x) :
      ReachN adj s y (n + 1)

/-- Specification-side: `d` is the minimum number of edges on any walk from
`s` to `x`. -/
def isMinDepth (adj : List (String × List String)) (s x : String) (d : Nat) : Prop :=
  ReachN adj s x d ∧ ∀ m, ReachN adj s x m → d ≤ m

/-- The loop invariant of the BFS in `_calculate_node_depths`. -/
structure BfsInv (adj : List (String × List String)) (s : String) (allowed : List String)
    (depths : List (String × Nat)) (queue : List String) : Prop where
  nodup : (depths.map (·.1)).Nodup
  sub : ∀ k ∈ depths.map (·.1), k ∈ allowed
  startMem : depths.lookup s = some 0
  sound : ∀ x d, depths.lookup x = some d → ReachN adj s x d
  queueRec : ∀ q ∈ queue, (depths.lookup q).isSome = true
  qnodup : queue.Nodup
  closure : ∀ y dy, depths.lookup y = some dy → y ∉ queue →
    ∀ x ∈ nbrs adj y, ∃ dx, depths.lookup x = some dx ∧ dx ≤ dy + 1
  mono : List.Pairwise
    (fun a b => (depths.lookup a).getD 0 ≤ (depths.lookup b).getD 0) queue
  bound : ∀ x dx, depths.lookup x = some dx → ∀ q ∈ queue,
    dx ≤ (depths.lookup q).getD 0 + 1

/-- What is true of the depth dictionary when the BFS queue has drained. -/
structure BfsFinal (adj : List (String × List String)) (s : String)
    (depths : List (String × Nat)) : Prop where
  startMem : depths.lookup s = some 0
  sound : ∀ x d, depths.lookup x = some d → ReachN adj s x d
  closure : ∀ y dy, depths.lookup y = some dy →
    ∀ x ∈ nbrs adj y, ∃ dx, depths.lookup x = some dx ∧ dx ≤ dy + 1

/-- The state invariant of the neighbour fold inside one BFS step (`cur`
popped with depth `dcur`). -/
structure VisitInv (adj : List (String × List String)) (s : String) (allowed : List String)
    (dcur : Nat) (st : List (String × Nat) × List String) : Prop where
  nodup : (st.1.map (·.1)).Nodup
  sub : ∀ k ∈ st.1.map (·.1), k ∈ allowed
  startMem : st.1.lookup s = some 0
  sound : ∀ x d, st.1.lookup x = some d → ReachN adj s x d
  queueRec : ∀ q ∈ st.2, (st.1.lookup q).isSome = true
  qnodup : st.2.Nodup
  mono : List.Pairwise
    (fun a b => (st.1.lookup a).getD 0 ≤ (st.1.lookup b).getD 0) st.2
  qup : ∀ q ∈ st.2, (st.1.lookup q).getD 0 ≤ dcur + 1
  allLe : ∀ x dx, st.1.lookup x = some dx → dx ≤ dcur + 1
  qlo : ∀ q ∈ st.2, dcur ≤ (st.1.lookup q).getD 0

/-! ### Concrete fixtures used by counterexamples and witnesses -/

/-- A template library holding all component types the converter needs,
with the configuration fields the converter writes. -/
def cexLib : Library :=
  [("ChatInput", ⟨"Chat Input", [("input_value", .s "")]⟩),
   ("Agent", ⟨"Agent", [("system_message", .s ""), ("api_key", .s "")]⟩),
   ("ChatOutput", ⟨"Chat Output", [("input_value", .s "")]⟩),
   ("ConditionalRouter", ⟨"If-Else",
     [("operator", .s "equals"), ("match_text", .s ""), ("case_sensitive", .b true),
      ("max_iterations", .i 1), ("default_route", .s "")]⟩)]

/-- A deterministic identity-generation hook for concrete runs. -/
def cexGen : Nat → String := fun n => toString n

/-- The template library with the decision-agent template removed. -/
def cexLibNA : Library :=
  [("ChatInput", ⟨"Chat Input", [("input_value", .s "")]⟩),
   ("ChatOutput", ⟨"Chat Output", [("input_value", .s "")]⟩),
   ("ConditionalRouter", ⟨"If-Else",
     [("operator", .s "equals"), ("match_text", .s ""), ("case_sensitive", .b true),
      ("max_iterations", .i 1), ("default_route", .s "")]⟩)]

/-- A conversation node with no optional payload. -/
def cexNode (nm : String) (st : Bool) (pr : String) : VNode :=
  ⟨nm, "conversation", pr, st, none, none, none, none⟩

/-- An `ai`-conditioned edge. -/
def cexEdge (a b c : String) : VEdge :=
  ⟨a, b, some ⟨some "ai", some c⟩⟩

/-- The edge list of a conversion result (empty on a failed run). -/
def edgesOf (r : Except String Flow) : List FlowEdge :=
  match r with
  | .ok f => f.fdata.edges
  | .error _ => []

/-- The node list of a conversion result (empty on a failed run). -/
def nodesOf (r : Except String Flow) : List FlowNode :=
  match r with
  | .ok f => f.fdata.nodes
  | .error _ => []

/-- The start-node name as the specification defines it: the node carrying
`isStart`, or the first declared node when none carries it. -/
def claimStartName (g : VGraph) : Option String :=
  match g.nodes.find? (·.isStart) with
  | some n => some n.name
  | none => g.nodes.head?.map (·.name)

/-- The node count predicted by the claim: 2 adapters, plus one node per
source node that has an incoming edge or is the declared start node, plus
k nodes (1 agent + k−1 gates) per routing-eligible (depth ≤ 1) branch
point of width k. -/
def specNodeCount (g : VGraph) : Nat :=
  2 + (g.nodes.filter
        (fun n => n.name ∈ g.edges.map (·.dst) ∨ claimStartName g = some n.name)).length
    + ((firstLevelBranching g).map (fun p => p.2.length)).sum

/-- A single node whose only edge references unknown node names. -/
def gBug : VGraph :=
  ⟨"w", [cexNode "A" false "pa"], [cexEdge "X" "Y" "c"]⟩

/-- One conversation node, no edges (used with an empty library). -/
def gC6 : VGraph :=
  ⟨"w", [cexNode "A" false "pa"], []⟩

/-- One node with a self edge (used for the flow-id counterexample). -/
def gC9 : VGraph :=
  ⟨"w", [cexNode "S" true "s"], [cexEdge "S" "S" "c"]⟩

/-- First-declared node without `isStart` and with no incoming edge; the
`isStart` carrier is second. -/
def gC4 : VGraph :=
  ⟨"w", [cexNode "A" false "pa", cexNode "B" true "pb"], [cexEdge "A" "B" "c"]⟩

/-- The `isStart` carrier has no incoming edge and is not first declared. -/
def gC4b : VGraph :=
  ⟨"w", [cexNode "A" false "pa", cexNode "B" true "pb", cexNode "C" false "pc"],
   [cexEdge "B" "A" "c1", cexEdge "A" "C" "c2"]⟩

/-- An `isStart` carrier that is an orphan branch point of depth 0. -/
def gC2 : VGraph :=
  ⟨"w2", [cexNode "P" false "pp", cexNode "Q" true "pq", cexNode "R" false "pr"],
   [cexEdge "Q" "P" "c1", cexEdge "Q" "R" "c2", cexEdge "P" "R" "c3"]⟩

/-- Same shape as `gC2`, used for the depth/routing counterexample. -/
def gC3 : VGraph :=
  ⟨"w3", [cexNode "U" false "pu", cexNode "V" true "pv", cexNode "W" false "pw"],
   [cexEdge "V" "U" "d1", cexEdge "V" "W" "d2", cexEdge "U" "W" "d3"]⟩

/-- The spec §8 end-to-end scenario: a start node that is itself a 2-way
branch point. -/
def gC5 : VGraph :=
  ⟨"w5", [cexNode "start" true "Greet", cexNode "billing" false "B", cexNode "support" false "S"],
   [cexEdge "start" "billing" "user wants billing", cexEdge "start" "support" "user wants support"]⟩

/-- A start node with three outgoing edges (a k = 3 branch point, compiled
to a cascade of two gates). -/
def gC1 : VGraph :=
  ⟨"w1", [cexNode "S" true "ps", cexNode "A" false "pa", cexNode "B" false "pb",
          cexNode "C" false "pc"],
   [cexEdge "S" "A" "c1", cexEdge "S" "B" "c2", cexEdge "S" "C" "c3"]⟩

end Vapi

namespace Vapi

/-- Invariant of the node-conversion loop: every id-map value is the id of
a created node. -/
def nodeAccInv (acc : NodeAcc) : Prop :=
  ∀ q ∈ acc.idMap, q.2 ∈ acc.flowNodes.map (·.id)

/-! ## Lemmas about the prompt builder -/

lemma promptStep_eq (edges : List VEdge) (acc : List String) (node : VNode) :
    promptStep edges acc node = acc ++ specNodeSection edges node := by
  unfold promptStep specNodeSection startingBlock transitionsBlock optTruthy
  cases hs : node.isStart <;>
    cases hfm : node.firstMessage <;>
    cases hv : node.varOutputs <;>
    cases hout : edges.filter (fun e => e.src = node.name) <;>
    simp_all [List.append_assoc] <;>
    split <;>
    simp_all [List.append_assoc] <;>
    split <;>
    simp_all [List.append_assoc]

lemma foldl_promptStep (edges : List VEdge) (nodes : List VNode) (acc : List String) :
    nodes.foldl (promptStep edges) acc = acc ++ nodes.flatMap (specNodeSection edges) := by
  induction nodes generalizing acc with
  | nil => simp
  | cons n ns ih => simp [List.foldl_cons, promptStep_eq, ih, List.append_assoc]

/-! ## Lemmas about dictionaries and fields -/

lemma mem_dictInsert {m : List (String × String)} {k v : String} {q : String × String}
    (h : q ∈ dictInsert m k v) : q ∈ m ∨ q.2 = v := by
  unfold dictInsert at h
  split at h
  · rcases List.mem_map.1 h with ⟨p, hp, he⟩
    by_cases hpk : p.1 = k
    · right
      simp only [hpk, if_pos] at he
      rw [← he]
    · left
      simp only [hpk, if_neg, not_false_iff] at he
      rwa [← he]
  · rcases List.mem_append.1 h with h | h
    · left; exact h
    · right
      rcases List.mem_singleton.1 h with rfl
      rfl

lemma lookup_cons_eq {B : Type} (a : String) (b : B) (l : List (String × B)) :
    List.lookup a ((a, b) :: l) = some b := by
  simp [List.lookup]

lemma lookup_cons_ne {B : Type} {a k : String} (b : B) (l : List (String × B)) (h : a ≠ k) :
    List.lookup a ((k, b) :: l) = List.lookup a l := by
  have hb : (a == k) = false := beq_eq_false_iff_ne.2 h
  simp [List.lookup, hb]

lemma lookup_overwrite {B : Type} (m : List (String × B)) (k : String) (v : B) (x : String) :
    (m.map (fun p => if p.1 = k then (k, v) else p)).lookup x
      = if x = k then (m.lookup k).map (fun _ => v) else m.lookup x := by
  induction m with
  | nil => simp
  | cons p ps ih =>
    rcases p with ⟨a, b⟩
    simp only [List.map_cons]
    by_cases hpk : a = k
    · subst hpk
      have he : (if ((a, b) : String × B).1 = a then (a, v) else (a, b)) = (a, v) :=
        if_pos rfl
      rw [he]
      by_cases hxk : x = a
      · subst hxk
        rw [lookup_cons_eq, lookup_cons_eq, if_pos rfl]
        simp
      · rw [lookup_cons_ne v _ hxk, lookup_cons_ne b _ hxk, ih, if_neg hxk, if_neg hxk]
    · have he : (if ((a, b) : String × B).1 = k then (k, v) else (a, b)) = (a, b) :=
        if_neg hpk
      rw [he]
      by_cases hxa : x = a
      · subst hxa
        have hxk : x ≠ k := hpk
        rw [lookup_cons_eq, if_neg hxk, lookup_cons_eq]
      · rw [lookup_cons_ne b _ hxa, lookup_cons_ne b _ hxa, ih]
        by_cases hxk : x = k
        · subst hxk
          rw [if_pos rfl, if_pos rfl, lookup_cons_ne b _ (fun h => hpk h.symm)]
        · rw [if_neg hxk, if_neg hxk]

lemma lookup_append_alt {B : Type} (m1 m2 : List (String × B)) (x : String) :
    (m1 ++ m2).lookup x
      = match m1.lookup x with
        | some v => some v
        | none => m2.lookup x := by
  induction m1 with
  | nil => simp
  | cons p ps ih =>
    rcases p with ⟨a, b⟩
    by_cases hxa : x = a
    · subst hxa
      rw [List.cons_append, lookup_cons_eq, lookup_cons_eq]
    · rw [List.cons_append, lookup_cons_ne b _ hxa, lookup_cons_ne b _ hxa, ih]

lemma lookup_dictInsert (m : List (String × String)) (k v x : String) :
    (dictInsert m k v).lookup x = if x = k then some v else m.lookup x := by
  unfold dictInsert
  split
  case isTrue hs =>
    rw [lookup_overwrite]
    by_cases hxk : x = k
    · rcases Option.isSome_iff_exists.1 hs with ⟨w, hw⟩
      simp [hxk, hw]
    · simp [hxk]
  case isFalse hs =>
    rw [lookup_append_alt]
    by_cases hxk : x = k
    · subst hxk
      cases hm : m.lookup x with
      | some w => exact absurd (by simp [hm]) hs
      | none => rw [if_pos rfl, lookup_cons_eq]
    · rw [if_neg hxk]
      cases hm : m.lookup x with
      | some w => rfl
      | none =>
        rw [lookup_cons_ne v _ hxk]
        simp

/-! ## Lemmas about the node phase -/

lemma libHas_head (c : String) (t : Template) (rest : Library) :
    libHas ((c, t) :: rest) c = true := by
  simp [libHas, lookup_cons_eq]

lemma cloneComponent_of_libHas {lib : Library} {ctype : String} (gen : Nat → String) (k : Nat)
    (h : libHas lib ctype = true) :
    ∃ t : Template, cloneComponent lib ctype gen k
      = some (⟨ctype ++ "-" ++ gen k, ctype, t.displayName, t.fields, none, (0, 0)⟩, k + 1) := by
  unfold libHas at h
  rcases Option.isSome_iff_exists.1 h with ⟨t, ht⟩
  exact ⟨t, by unfold cloneComponent; rw [ht]⟩

lemma pickConversationType_spec {lib : Library} (h : lib ≠ []) :
    ∃ ct, pickConversationType lib = some ct ∧ libHas lib ct = true := by
  unfold pickConversationType
  by_cases h1 : libHas lib (if libHas lib "Agent" then "Agent" else "OpenAIModel") = true
  · exact ⟨_, by rw [if_pos h1], h1⟩
  · have h1f : ¬ (libHas lib (if libHas lib "Agent" then "Agent" else "OpenAIModel") = true) := h1
    cases lib with
    | nil => exact absurd rfl h
    | cons p rest =>
      rcases p with ⟨c, t⟩
      exact ⟨c, by rw [if_neg h1f]; rfl, libHas_head c t rest⟩

lemma pickToolType_spec {lib : Library} (h : lib ≠ []) :
    ∃ ct, pickToolType lib = some ct ∧ libHas lib ct = true := by
  unfold pickToolType
  by_cases h1 : libHas lib "ChatOutput" = true
  · exact ⟨"ChatOutput", by rw [if_pos h1], h1⟩
  · cases lib with
    | nil => exact absurd rfl h
    | cons p rest =>
      rcases p with ⟨c, t⟩
      exact ⟨c, by rw [if_neg h1]; rfl, libHas_head c t rest⟩

lemma head_pick_spec {lib : Library} (h : lib ≠ []) :
    ∃ ct, lib.head?.map (·.1) = some ct ∧ libHas lib ct = true := by
  cases lib with
  | nil => exact absurd rfl h
  | cons p rest =>
    rcases p with ⟨c, t⟩
    exact ⟨c, rfl, libHas_head c t rest⟩

lemma convertVapiNode_isSome {lib : Library} (h : lib ≠ []) (apiKey : String) (node : VNode)
    (idx : Nat) (gen : Nat → String) (k : Nat) :
    (convertVapiNode lib apiKey node idx gen k).isSome = true := by
  unfold convertVapiNode
  by_cases h1 : node.ntype = "conversation"
  · rw [if_pos h1]
    rcases pickConversationType_spec h with ⟨ct, hct, hhas⟩
    rcases cloneComponent_of_libHas gen k hhas with ⟨t, hcl⟩
    simp [hct, hcl]
  · rw [if_neg h1]
    by_cases h2 : node.ntype = "tool"
    · rw [if_pos h2]
      rcases pickToolType_spec h with ⟨ct, hct, hhas⟩
      rcases cloneComponent_of_libHas gen k hhas with ⟨t, hcl⟩
      simp [hct, hcl]
    · rw [if_neg h2]
      rcases head_pick_spec h with ⟨ct, hct, hhas⟩
      rcases cloneComponent_of_libHas gen k hhas with ⟨t, hcl⟩
      simp [hct, hcl]

lemma nodePhaseStep_inv (lib : Library) (apiKey : String) (gen : Nat → String)
    (tgts : List String) (startName : Option String) {acc : NodeAcc}
    (h : nodeAccInv acc) (p : Nat × VNode) :
    nodeAccInv (nodePhaseStep lib apiKey gen tgts startName acc p) := by
  unfold nodePhaseStep
  rcases p with ⟨i, node⟩
  dsimp only
  split
  · cases hc : convertVapiNode lib apiKey node i gen acc.k with
    | none => exact h
    | some r =>
      rcases r with ⟨n, k1⟩
      intro q hq
      simp only at hq
      rcases mem_dictInsert hq with hq | hq
      · have := h q hq
        simp only [List.map_append, List.mem_append]
        exact Or.inl this
      · simp only [List.map_append, List.mem_append, hq]
        right
        simp
  · exact h

lemma foldl_nodeInv (lib : Library) (apiKey : String) (gen : Nat → String)
    (tgts : List String) (startName : Option String) :
    ∀ (l : List (Nat × VNode)) (acc : NodeAcc), nodeAccInv acc →
      nodeAccInv (l.foldl (nodePhaseStep lib apiKey gen tgts startName) acc) := by
  intro l
  induction l with
  | nil => intro acc h; exact h
  | cons p ps ih =>
    intro acc h
    exact ih _ (nodePhaseStep_inv _ _ _ _ _ h p)

lemma convertedPart_inv (lib : Library) (apiKey : String) (gen : Nat → String) (g : VGraph)
    (k0 : Nat) : nodeAccInv (convertedPart lib apiKey gen g k0) := by
  unfold convertedPart
  apply foldl_nodeInv
  intro q hq
  simp at hq

lemma nodePhase_idMap_mem (lib : Library) (apiKey : String) (gen : Nat → String) (g : VGraph) :
    ∀ q ∈ (nodePhase lib apiKey gen g).idMap,
      q.2 ∈ (nodePhase lib apiKey gen g).flowNodes.map (·.id) := by
  intro q hq
  unfold nodePhase at hq ⊢
  dsimp only at hq ⊢
  have := convertedPart_inv lib apiKey gen g (ciPart lib gen).2.2 q hq
  simp only [List.map_append, List.mem_append]
  exact Or.inl (Or.inr this)

lemma ciPart_id (lib : Library) (gen : Nat → String) :
    ∀ ci, (ciPart lib gen).2.1 = some ci → ci ∈ (ciPart lib gen).1.map (·.id) := by
  unfold ciPart
  cases h : cloneComponent lib "ChatInput" gen 0 with
  | none => intro ci hci; simp at hci
  | some r =>
    rcases r with ⟨n, k⟩
    intro ci hci
    simp at hci
    simp [← hci]

lemma coPart_id (lib : Library) (gen : Nat → String) (prior : List FlowNode) (k : Nat) :
    ∀ co, (coPart lib gen prior k).2.1 = some co → co ∈ (coPart lib gen prior k).1.map (·.id) := by
  unfold coPart
  cases h : cloneComponent lib "ChatOutput" gen k with
  | none => intro co hco; simp at hco
  | some r =>
    rcases r with ⟨n, k1⟩
    intro co hco
    simp at hco
    simp [← hco]

lemma nodePhase_chatInput_mem (lib : Library) (apiKey : String) (gen : Nat → String)
    (g : VGraph) :
    ∀ ci, (nodePhase lib apiKey gen g).chatInputId = some ci →
      ci ∈ (nodePhase lib apiKey gen g).flowNodes.map (·.id) := by
  intro ci hci
  unfold nodePhase at hci ⊢
  dsimp only at hci ⊢
  have := ciPart_id lib gen ci hci
  simp only [List.map_append, List.mem_append]
  exact Or.inl (Or.inl this)

lemma nodePhase_chatOutput_mem (lib : Library) (apiKey : String) (gen : Nat → String)
    (g : VGraph) :
    ∀ co, (nodePhase lib apiKey gen g).chatOutputId = some co →
      co ∈ (nodePhase lib apiKey gen g).flowNodes.map (·.id) := by
  intro co hco
  unfold nodePhase at hco ⊢
  dsimp only at hco ⊢
  have := coPart_id lib gen
    ((ciPart lib gen).1 ++ (convertedPart lib apiKey gen g (ciPart lib gen).2.2).flowNodes)
    (convertedPart lib apiKey gen g (ciPart lib gen).2.2).k co hco
  simp only [List.map_append, List.mem_append]
  exact Or.inr this

/-! ## Lemmas about the routing phase -/

lemma lookup_setFieldIfPresent (f : List (String × FVal)) (k : String) (v : FVal) (x : String) :
    (setFieldIfPresent f k v).lookup x
      = if x = k then (f.lookup k).map (fun _ => v) else f.lookup x :=
  lookup_overwrite f k v x

@[simp]
lemma hasField_setFieldIfPresent (f : List (String × FVal)) (k : String) (v : FVal)
    (x : String) : hasField (setFieldIfPresent f k v) x = hasField f x := by
  unfold hasField
  rw [lookup_setFieldIfPresent]
  by_cases hxk : x = k
  · subst hxk
    rw [if_pos rfl]
    cases f.lookup x <;> simp
  · rw [if_neg hxk]

lemma strictSet_ok_of_hasField {f : List (String × FVal)} {k : String} {v : FVal}
    (h : hasField f k = true) :
    strictSet f k v = .ok (setFieldIfPresent f k v) := by
  unfold strictSet
  rw [if_pos h]

lemma createRouterAgent_spec {lib : Library} (hA : libHas lib "Agent" = true)
    (apiKey sourceName : String) (conds : List (Option VCondition)) (pos : Int × Int)
    (gen : Nat → String) (k : Nat) :
    ∃ ra, createRouterAgent lib apiKey sourceName conds pos gen k = .ok (ra, k + 1) ∧
      ra.id = "Agent" ++ "-" ++ gen k ∧ ra.ctype = "Agent" := by
  rcases cloneComponent_of_libHas gen k hA with ⟨t, hcl⟩
  unfold createRouterAgent
  rw [hcl]
  exact ⟨_, rfl, rfl, rfl⟩

lemma createRouterAgent_error {lib : Library} (hA : libHas lib "Agent" = false)
    (apiKey sourceName : String) (conds : List (Option VCondition)) (pos : Int × Int)
    (gen : Nat → String) (k : Nat) :
    createRouterAgent lib apiKey sourceName conds pos gen k
      = .error "Agent template required for routing" := by
  unfold createRouterAgent cloneComponent
  unfold libHas at hA
  cases hl : lib.lookup "Agent" with
  | none => rfl
  | some t => rw [hl] at hA; simp at hA

lemma except_bind_ok {E A B : Type} (x : A) (f : A → Except E B) :
    (Except.ok x : Except E A) >>= f = f x := rfl

lemma except_bind_error {E A B : Type} (m : E) (f : A → Except E B) :
    (Except.error m : Except E A) >>= f = .error m := rfl

lemma except_bind_pure {E A B : Type} (x : A) (f : A → Except E B) :
    (pure x : Except E A) >>= f = f x := rfl

lemma createConditionalRouter_spec {lib : Library} (hcr : condRouterOK lib = true)
    (idx : Nat) (pos : Int × Int) (branchName : String) (gen : Nat → String) (k : Nat) :
    ∃ r, createConditionalRouter lib idx pos branchName gen k = .ok (r, k + 1) ∧
      r.id = "ConditionalRouter" ++ "-" ++ gen k ∧ gateSpec r idx := by
  unfold condRouterOK at hcr
  cases hl : lib.lookup "ConditionalRouter" with
  | none => rw [hl] at hcr; simp at hcr
  | some t =>
    rw [hl] at hcr
    simp only [Bool.and_eq_true] at hcr
    obtain ⟨⟨⟨⟨h1, h2⟩, h3⟩, h4⟩, h5⟩ := hcr
    unfold createConditionalRouter cloneComponent
    rw [hl]
    dsimp only
    rw [@strictSet_ok_of_hasField t.fields "operator" (FVal.s "contains") h1, except_bind_ok]
    rw [@strictSet_ok_of_hasField _ "match_text" (FVal.s (toString idx))
        (by simp only [hasField_setFieldIfPresent]; exact h2), except_bind_ok]
    rw [@strictSet_ok_of_hasField _ "case_sensitive" (FVal.b false)
        (by simp only [hasField_setFieldIfPresent]; exact h3), except_bind_ok]
    rw [@strictSet_ok_of_hasField _ "max_iterations" (FVal.i 10)
        (by simp only [hasField_setFieldIfPresent]; exact h4), except_bind_ok]
    rw [@strictSet_ok_of_hasField _ "default_route" (FVal.s "false_result")
        (by simp only [hasField_setFieldIfPresent]; exact h5), except_bind_ok]
    refine ⟨_, rfl, rfl, rfl, ?_, ?_, ?_, ?_⟩
    · rw [lookup_setFieldIfPresent, if_neg (by decide : ¬("operator" : String) = "default_route"),
        lookup_setFieldIfPresent, if_neg (by decide : ¬("operator" : String) = "max_iterations"),
        lookup_setFieldIfPresent, if_neg (by decide : ¬("operator" : String) = "case_sensitive"),
        lookup_setFieldIfPresent, if_neg (by decide : ¬("operator" : String) = "match_text"),
        lookup_setFieldIfPresent, if_pos rfl]
      rcases Option.isSome_iff_exists.1 h1 with ⟨w, hw⟩
      rw [hw]
      rfl
    · rw [lookup_setFieldIfPresent,
        if_neg (by decide : ¬("match_text" : String) = "default_route"),
        lookup_setFieldIfPresent,
        if_neg (by decide : ¬("match_text" : String) = "max_iterations"),
        lookup_setFieldIfPresent,
        if_neg (by decide : ¬("match_text" : String) = "case_sensitive"),
        lookup_setFieldIfPresent, if_pos rfl, lookup_setFieldIfPresent]
      have h2b : (t.fields.lookup "match_text").isSome = true := by
        simpa [hasField] using h2
      rcases Option.isSome_iff_exists.1 h2b with ⟨w, hw⟩
      rw [if_neg (by decide : ¬("match_text" : String) = "operator"), hw]
      rfl
    · rw [lookup_setFieldIfPresent,
        if_neg (by decide : ¬("case_sensitive" : String) = "default_route"),
        lookup_setFieldIfPresent,
        if_neg (by decide : ¬("case_sensitive" : String) = "max_iterations"),
        lookup_setFieldIfPresent, if_pos rfl, lookup_setFieldIfPresent,
        if_neg (by decide : ¬("case_sensitive" : String) = "match_text"),
        lookup_setFieldIfPresent,
        if_neg (by decide : ¬("case_sensitive" : String) = "operator")]
      have h3b : (t.fields.lookup "case_sensitive").isSome = true := by
        simpa [hasField] using h3
      rcases Option.isSome_iff_exists.1 h3b with ⟨w, hw⟩
      rw [hw]
      rfl
    · rw [lookup_setFieldIfPresent, if_pos rfl, lookup_setFieldIfPresent,
        if_neg (by decide : ¬("default_route" : String) = "max_iterations"),
        lookup_setFieldIfPresent,
        if_neg (by decide : ¬("default_route" : String) = "case_sensitive"),
        lookup_setFieldIfPresent,
        if_neg (by decide : ¬("default_route" : String) = "match_text"),
        lookup_setFieldIfPresent,
        if_neg (by decide : ¬("default_route" : String) = "operator")]
      have h5b : (t.fields.lookup "default_route").isSome = true := by
        simpa [hasField] using h5
      rcases Option.isSome_iff_exists.1 h5b with ⟨w, hw⟩
      rw [hw]
      rfl

lemma cascadeFold_spec {lib : Library} (hcr : condRouterOK lib = true)
    (edgesToTargets : List VEdge) (pos : Int × Int) (gen : Nat → String) :
    ∀ (idxs : List Nat) (st : List FlowNode × List String × Nat),
      ∃ gates : List FlowNode,
        idxs.foldlM (cascadeStep lib edgesToTargets pos gen) st
          = .ok (st.1 ++ gates, st.2.1 ++ gates.map (·.id), st.2.2 + idxs.length) ∧
        gates.length = idxs.length ∧
        ∀ j (hj : j < idxs.length), ∃ hg : j < gates.length,
          gateSpec (gates.get ⟨j, hg⟩) (idxs.get ⟨j, hj⟩ + 1) := by
  intro idxs
  induction idxs with
  | nil =>
    intro st
    refine ⟨[], ?_, rfl, ?_⟩
    · simp only [List.foldlM_nil, List.append_nil, List.map_nil, Nat.add_zero]
      rfl
    · intro j hj
      exact absurd hj (by simp)
  | cons i idxs ih =>
    intro st
    rcases createConditionalRouter_spec hcr (i + 1)
        (pos.1 + 600 + 300 * (i : Int), pos.2 + 150 * (i : Int))
        (match edgesToTargets.get? i with
         | some e => e.dst
         | none => "branch_" ++ toString (i + 1)) gen st.2.2 with ⟨r, hr, hid, hspec⟩
    have hstep : cascadeStep lib edgesToTargets pos gen st i
        = .ok (st.1 ++ [r], st.2.1 ++ [r.id], st.2.2 + 1) := by
      unfold cascadeStep
      dsimp only
      rw [hr, except_bind_ok]
      rfl
    rcases ih (st.1 ++ [r], st.2.1 ++ [r.id], st.2.2 + 1) with ⟨gates, hfold, hlen, hgs⟩
    refine ⟨r :: gates, ?_, by simp [hlen], ?_⟩
    · rw [List.foldlM_cons, hstep, except_bind_ok, hfold]
      simp only [List.append_assoc, List.singleton_append, List.map_cons]
      have : st.2.2 + 1 + idxs.length = st.2.2 + (idxs.length + 1) := by omega
      rw [this]
      rfl
    · intro j hj
      cases j with
      | zero => exact ⟨by simp, hspec⟩
      | succ j2 =>
        have hj2 : j2 < idxs.length := by simpa using hj
        rcases hgs j2 hj2 with ⟨hg, hgspec⟩
        exact ⟨by simpa using hg, hgspec⟩

lemma insertRoutingLogic_spec {lib : Library} (hA : libHas lib "Agent" = true)
    (hcr : condRouterOK lib = true) (apiKey name : String) (es : List VEdge)
    (pos : Int × Int) (gen : Nat → String) (k : Nat) :
    ∃ ra gates info,
      insertRoutingLogic lib apiKey name es pos gen k
        = .ok (ra :: gates, info, k + 1 + gates.length) ∧
      ra.ctype = "Agent" ∧ info.sourceName = name ∧ info.redges = es ∧
      info.numBranches = es.length ∧ info.routerAgentId = ra.id ∧
      gateIds info.pattern = gates.map (·.id) ∧
      gates.length = es.length - 1 ∧
      (es.length = 2 → ∃ gid, info.pattern = .simple gid) ∧
      (es.length ≠ 2 → ∃ gids, info.pattern = .cascade gids) ∧
      (∀ j (hj : j < gates.length), gateSpec (gates.get ⟨j, hj⟩) (j + 1)) := by
  rcases createRouterAgent_spec hA apiKey name (es.map (·.cond)) (pos.1 + 300, pos.2) gen k
    with ⟨ra, hra, hraid, hractype⟩
  unfold insertRoutingLogic
  dsimp only
  rw [hra, except_bind_ok]
  by_cases h2 : es.length = 2
  · rw [if_pos h2]
    rcases createConditionalRouter_spec hcr 1 (pos.1 + 600, pos.2) (name ++ "_branch") gen (k + 1)
      with ⟨r, hr, hrid, hrspec⟩
    rw [hr, except_bind_ok]
    refine ⟨ra, [r], ⟨name, ra.id, es, es.length, .simple r.id⟩, rfl, hractype, rfl, rfl, rfl,
      rfl, rfl, by simp [h2], fun _ => ⟨r.id, rfl⟩, fun hne => absurd h2 hne, ?_⟩
    · intro j hj
      have hj0 : j = 0 := by
        simp only [List.length_singleton] at hj
        omega
      subst hj0
      exact hrspec
  · rw [if_neg h2]
    rcases cascadeFold_spec hcr es pos gen (List.range (es.length - 1)) ([], [], k + 1)
      with ⟨gates, hfold, hlen, hgs⟩
    rw [hfold, except_bind_ok]
    simp only [List.nil_append, List.length_range] at hfold hlen ⊢
    refine ⟨ra, gates, ⟨name, ra.id, es, es.length,
      .cascade (gates.map (fun n : FlowNode => n.id))⟩, ?_, hractype,
      rfl, rfl, rfl, rfl, rfl, hlen,
      fun he => absurd he h2, fun _ => ⟨gates.map (fun n : FlowNode => n.id), rfl⟩, ?_⟩
    · rw [hlen]
    · intro j hj
      have hj2 : j < (List.range (es.length - 1)).length := by
        simpa [List.length_range, hlen] using hj
      rcases hgs j hj2 with ⟨hg, hgspec⟩
      have : (List.range (es.length - 1)).get ⟨j, hj2⟩ = j := List.get_range j hj2
      rw [this] at hgspec
      exact hgspec

lemma mem_of_lookup_eq_some {B : Type} {l : List (String × B)} {a : String} {b : B}
    (h : l.lookup a = some b) : (a, b) ∈ l := by
  induction l with
  | nil => simp at h
  | cons p ps ih =>
    rcases p with ⟨k, v⟩
    by_cases hak : a = k
    · subst hak
      rw [lookup_cons_eq] at h
      injection h with h
      subst h
      exact List.mem_cons_self _ _
    · rw [lookup_cons_ne v _ hak] at h
      exact List.mem_cons_of_mem _ (ih h)

lemma registryEntryOK_mono {asm : Assembled} {p : String × List VEdge} {info : RoutingInfo}
    {ns ns2 : List FlowNode} (hsub : ∀ n, n ∈ ns → n ∈ ns2)
    (h : registryEntryOK asm p info ns) : registryEntryOK asm p info ns2 := by
  obtain ⟨h1, h2, h3, h4, ⟨ra, hra, hraid, hrat⟩, h6, h7, h8, h9⟩ := h
  refine ⟨h1, h2, h3, h4, ⟨ra, hsub ra hra, hraid, hrat⟩, h6, h7, h8, ?_⟩
  intro j hj
  rcases h9 j hj with ⟨g, hg, hgid, hgs⟩
  exact ⟨g, hsub g hg, hgid, hgs⟩

lemma routingFold_spec (lib : Library) (apiKey : String) (gen : Nat → String)
    (asm : Assembled) (hA : libHas lib "Agent" = true) (hcr : condRouterOK lib = true)
    (hasm : ∀ q ∈ asm.idMap, q.2 ∈ asm.flowNodes.map (·.id)) :
    ∀ (fl : List (String × List VEdge)) (st : RoutingResult),
      ∃ (ns : List FlowNode) (infos : List RoutingInfo),
        fl.foldlM (routingStep lib apiKey gen asm) st
          = .ok ⟨st.newNodes ++ ns, st.registry ++ infos, st.k + ns.length⟩ ∧
        List.Forall₂ (fun p info => registryEntryOK asm p info ns)
          (fl.filter (fun p => (asm.idMap.lookup p.1).isSome)) infos ∧
        ns.length = ((fl.filter (fun p => (asm.idMap.lookup p.1).isSome)).map
          (fun p => p.2.length - 1 + 1)).sum := by
  intro fl
  induction fl with
  | nil =>
    intro st
    refine ⟨[], [], ?_, List.Forall₂.nil, rfl⟩
    simp only [List.foldlM_nil, List.append_nil, Nat.add_zero]
    rfl
  | cons p fl ih =>
    intro st
    cases hlk : asm.idMap.lookup p.1 with
    | none =>
      have hstep : routingStep lib apiKey gen asm st p = pure st := by
        unfold routingStep
        rw [hlk]
      rcases ih st with ⟨ns, infos, hfold, hrel, hlen⟩
      refine ⟨ns, infos, ?_, ?_, ?_⟩
      · rw [List.foldlM_cons, hstep, except_bind_pure, hfold]
      · have : (asm.idMap.lookup p.1).isSome = false := by rw [hlk]; rfl
        simpa [List.filter_cons, this] using hrel
      · have : (asm.idMap.lookup p.1).isSome = false := by rw [hlk]; rfl
        simpa [List.filter_cons, this] using hlen
    | some sid =>
      have hmem : (p.1, sid) ∈ asm.idMap := mem_of_lookup_eq_some hlk
      have hsid : sid ∈ asm.flowNodes.map (·.id) := hasm _ hmem
      rcases List.mem_map.1 hsid with ⟨n0, hn0, hn0id⟩
      have hfindSome : ((asm.flowNodes ++ st.newNodes).find?
          (fun n => n.id = sid)).isSome = true := by
        rw [List.find?_isSome]
        exact ⟨n0, List.mem_append_left _ hn0, by simp [hn0id]⟩
      rcases Option.isSome_iff_exists.1 hfindSome with ⟨srcNode, hfind⟩
      rcases insertRoutingLogic_spec hA hcr apiKey p.1 p.2 srcNode.pos gen st.k with
        ⟨ra, gates, info, hins, hrat, hsn, hre, hnb, hrid, hgid, hglen, hsimple, hcasc, hgspec⟩
      have hstep : routingStep lib apiKey gen asm st p
          = .ok ⟨st.newNodes ++ (ra :: gates), st.registry ++ [info],
              st.k + 1 + gates.length⟩ := by
        unfold routingStep
        rw [hlk]
        dsimp only
        rw [hfind]
        dsimp only
        rw [hins, except_bind_ok]
        rfl
      rcases ih ⟨st.newNodes ++ (ra :: gates), st.registry ++ [info],
        st.k + 1 + gates.length⟩ with ⟨ns, infos, hfold, hrel, hlen⟩
      refine ⟨(ra :: gates) ++ ns, info :: infos, ?_, ?_, ?_⟩
      · rw [List.foldlM_cons, hstep, except_bind_ok, hfold]
        dsimp only
        simp only [Except.ok.injEq, RoutingResult.mk.injEq, List.append_assoc,
          List.cons_append, List.length_append, List.length_cons]
        refine ⟨trivial, by simp, ?_⟩
        omega
      · have hcond : (asm.idMap.lookup p.1).isSome = true := by rw [hlk]; rfl
        rw [List.filter_cons_of_pos (by simp [hcond])]
        refine List.Forall₂.cons ?_ ?_
        · refine ⟨hsn, hre, hnb, hcond, ⟨ra, by simp, hrid.symm, hrat⟩, ?_, ?_, ?_, ?_⟩
          · rw [hgid, List.length_map, hglen]
          · intro he
            rcases hsimple he with ⟨gid, hp⟩
            exact ⟨gid, hp⟩
          · intro he
            rcases hcasc he with ⟨gids, hp⟩
            exact ⟨gids, hp⟩
          · intro j hj
            have hj2 := hj
            rw [hgid, List.length_map] at hj2
            refine ⟨gates.get ⟨j, hj2⟩, by simp [List.get_mem], ?_, hgspec j hj2⟩
            rw [List.get_of_eq hgid ⟨j, hj⟩]
            simp [List.get_map]
        · refine List.Forall₂.imp ?_ hrel
          intro a b hab
          exact registryEntryOK_mono (fun n hn => by
            simp only [List.mem_append]
            exact Or.inr hn) hab
      · have hcond : (asm.idMap.lookup p.1).isSome = true := by rw [hlk]; rfl
        rw [List.filter_cons_of_pos (by simp [hcond])]
        simp only [List.map_cons, List.sum_cons, List.length_append, List.length_cons]
        rw [hlen]
        have : gates.length = p.2.length - 1 := hglen
        omega

lemma routingPhase_spec (lib : Library) (apiKey : String) (gen : Nat → String)
    (asm : Assembled) (hA : libHas lib "Agent" = true) (hcr : condRouterOK lib = true)
    (hasm : ∀ q ∈ asm.idMap, q.2 ∈ asm.flowNodes.map (·.id))
    (fl : List (String × List VEdge)) :
    ∃ rr, routingPhase lib apiKey gen asm fl = .ok rr ∧
      List.Forall₂ (fun p info => registryEntryOK asm p info rr.newNodes)
        (fl.filter (fun p => (asm.idMap.lookup p.1).isSome)) rr.registry ∧
      rr.newNodes.length = ((fl.filter (fun p => (asm.idMap.lookup p.1).isSome)).map
        (fun p => p.2.length - 1 + 1)).sum := by
  rcases routingFold_spec lib apiKey gen asm hA hcr hasm fl ⟨[], [], asm.k⟩ with
    ⟨ns, infos, hfold, hrel, hlen⟩
  refine ⟨⟨ns, infos, asm.k + ns.length⟩, ?_, ?_, ?_⟩
  · unfold routingPhase
    rw [hfold]
    simp
  · exact hrel
  · exact hlen

lemma convert_unfold (lib : Library) (apiKey : String) (gen : Nat → String)
    (flowId : String) (g : VGraph) :
    convert lib apiKey gen flowId g
      = (routingPhase lib apiKey gen (nodePhase lib apiKey gen g) (firstLevelBranching g))
          >>= fun rr =>
            (terminalEdges g (nodePhase lib apiKey gen g) rr.registry
              (chatInputStartEdges g (nodePhase lib apiKey gen g)
                ++ directEdges g (nodePhase lib apiKey gen g).idMap
                    ((firstLevelBranching g).map (·.1))
                ++ rr.registry.flatMap
                    (routingEdgesFor (nodePhase lib apiKey gen g).chatInputId
                      (routeStartName g) (nodePhase lib apiKey gen g).idMap)))
              >>= fun e4 =>
                pure { fname := g.wname, fdescr := "Converted from VAPI: " ++ g.wname,
                       fid := flowId,
                       fdata := { nodes := (nodePhase lib apiKey gen g).flowNodes
                                    ++ rr.newNodes,
                                  edges := chatInputStartEdges g (nodePhase lib apiKey gen g)
                                    ++ directEdges g (nodePhase lib apiKey gen g).idMap
                                        ((firstLevelBranching g).map (·.1))
                                    ++ rr.registry.flatMap
                                        (routingEdgesFor
                                          (nodePhase lib apiKey gen g).chatInputId
                                          (routeStartName g)
                                          (nodePhase lib apiKey gen g).idMap)
                                    ++ e4 } } := rfl

lemma convert_ok_inv {lib : Library} {apiKey : String} {gen : Nat → String}
    {flowId : String} {g : VGraph} {f : Flow}
    (h : convert lib apiKey gen flowId g = .ok f) :
    ∃ rr e4,
      routingPhase lib apiKey gen (nodePhase lib apiKey gen g) (firstLevelBranching g)
        = .ok rr ∧
      terminalEdges g (nodePhase lib apiKey gen g) rr.registry
        (chatInputStartEdges g (nodePhase lib apiKey gen g)
          ++ directEdges g (nodePhase lib apiKey gen g).idMap
              ((firstLevelBranching g).map (·.1))
          ++ rr.registry.flatMap (routingEdgesFor (nodePhase lib apiKey gen g).chatInputId
              (routeStartName g) (nodePhase lib apiKey gen g).idMap)) = .ok e4 ∧
      f.fdata.nodes = (nodePhase lib apiKey gen g).flowNodes ++ rr.newNodes ∧
      f.fdata.edges = chatInputStartEdges g (nodePhase lib apiKey gen g)
          ++ directEdges g (nodePhase lib apiKey gen g).idMap
              ((firstLevelBranching g).map (·.1))
          ++ rr.registry.flatMap (routingEdgesFor (nodePhase lib apiKey gen g).chatInputId
              (routeStartName g) (nodePhase lib apiKey gen g).idMap)
          ++ e4 ∧
      f.fid = flowId ∧ f.fname = g.wname := by
  rw [convert_unfold] at h
  cases hrp : routingPhase lib apiKey gen (nodePhase lib apiKey gen g)
      (firstLevelBranching g) with
  | error m =>
    rw [hrp, except_bind_error] at h
    exact absurd h (by simp)
  | ok rr =>
    rw [hrp, except_bind_ok] at h
    cases hte : terminalEdges g (nodePhase lib apiKey gen g) rr.registry
        (chatInputStartEdges g (nodePhase lib apiKey gen g)
          ++ directEdges g (nodePhase lib apiKey gen g).idMap
              ((firstLevelBranching g).map (·.1))
          ++ rr.registry.flatMap (routingEdgesFor (nodePhase lib apiKey gen g).chatInputId
              (routeStartName g) (nodePhase lib apiKey gen g).idMap)) with
    | error m =>
      rw [hte, except_bind_error] at h
      exact absurd h (by simp)
    | ok e4 =>
      rw [hte, except_bind_ok] at h
      injection h with h2
      refine ⟨rr, e4, rfl, hte, ?_, ?_, ?_, ?_⟩ <;> rw [← h2]

lemma strictSet_ok_inv {f f1 : List (String × FVal)} {k : String} {v : FVal}
    (h : strictSet f k v = .ok f1) :
    hasField f k = true ∧ f1 = setFieldIfPresent f k v := by
  unfold strictSet at h
  split at h
  · refine ⟨by assumption, ?_⟩
    injection h with h2
    exact h2.symm
  · cases h

lemma createRouterAgent_ok_imp {lib : Library} {apiKey sourceName : String}
    {conds : List (Option VCondition)} {pos : Int × Int} {gen : Nat → String} {k : Nat}
    {x : FlowNode × Nat}
    (h : createRouterAgent lib apiKey sourceName conds pos gen k = .ok x) :
    libHas lib "Agent" = true := by
  by_cases hA : libHas lib "Agent" = true
  · exact hA
  · have hf : libHas lib "Agent" = false := by
      cases hb : libHas lib "Agent"
      · rfl
      · exact absurd hb hA
    rw [createRouterAgent_error hf apiKey sourceName conds pos gen k] at h
    cases h

lemma createConditionalRouter_ok_imp {lib : Library} {idx : Nat} {pos : Int × Int}
    {branchName : String} {gen : Nat → String} {k : Nat} {x : FlowNode × Nat}
    (h : createConditionalRouter lib idx pos branchName gen k = .ok x) :
    condRouterOK lib = true := by
  unfold createConditionalRouter cloneComponent at h
  cases hl : lib.lookup "ConditionalRouter" with
  | none => rw [hl] at h; cases h
  | some t =>
    rw [hl] at h
    dsimp only at h
    cases h1 : strictSet t.fields "operator" (FVal.s "contains") with
    | error m => rw [h1, except_bind_error] at h; cases h
    | ok f1 =>
      rw [h1, except_bind_ok] at h
      cases h2 : strictSet f1 "match_text" (FVal.s (toString idx)) with
      | error m => rw [h2, except_bind_error] at h; cases h
      | ok f2 =>
        rw [h2, except_bind_ok] at h
        cases h3 : strictSet f2 "case_sensitive" (FVal.b false) with
        | error m => rw [h3, except_bind_error] at h; cases h
        | ok f3 =>
          rw [h3, except_bind_ok] at h
          cases h4 : strictSet f3 "max_iterations" (FVal.i 10) with
          | error m => rw [h4, except_bind_error] at h; cases h
          | ok f4 =>
            rw [h4, except_bind_ok] at h
            cases h5 : strictSet f4 "default_route" (FVal.s "false_result") with
            | error m => rw [h5, except_bind_error] at h; cases h
            | ok f5 =>
              obtain ⟨hh1, he1⟩ := strictSet_ok_inv h1
              obtain ⟨hh2, he2⟩ := strictSet_ok_inv h2
              obtain ⟨hh3, he3⟩ := strictSet_ok_inv h3
              obtain ⟨hh4, he4⟩ := strictSet_ok_inv h4
              obtain ⟨hh5, he5⟩ := strictSet_ok_inv h5
              subst he1 he2 he3 he4
              simp only [hasField_setFieldIfPresent] at hh2 hh3 hh4 hh5
              unfold condRouterOK
              rw [hl]
              simp [hh1, hh2, hh3, hh4, hh5]

lemma insertRoutingLogic_ok_inv {lib : Library} {apiKey name : String} {es : List VEdge}
    {pos : Int × Int} {gen : Nat → String} {k : Nat}
    {res : List FlowNode × RoutingInfo × Nat}
    (h2 : 2 ≤ es.length)
    (h : insertRoutingLogic lib apiKey name es pos gen k = .ok res) :
    libHas lib "Agent" = true ∧ condRouterOK lib = true := by
  unfold insertRoutingLogic at h
  dsimp only at h
  cases hra : createRouterAgent lib apiKey name (es.map (·.cond)) (pos.1 + 300, pos.2) gen k with
  | error m => rw [hra, except_bind_error] at h; cases h
  | ok x =>
    have hA := createRouterAgent_ok_imp hra
    rcases x with ⟨ra, k1⟩
    rw [hra, except_bind_ok] at h
    refine ⟨hA, ?_⟩
    by_cases hlen2 : es.length = 2
    · rw [if_pos hlen2] at h
      cases hcr1 : createConditionalRouter lib 1 (pos.1 + 600, pos.2) (name ++ "_branch")
          gen k1 with
      | error m => rw [hcr1, except_bind_error] at h; cases h
      | ok y => exact createConditionalRouter_ok_imp hcr1
    · rw [if_neg hlen2] at h
      have hpos : 1 ≤ es.length - 1 := by omega
      cases hrange : List.range (es.length - 1) with
      | nil =>
        have := List.length_range (es.length - 1)
        rw [hrange] at this
        simp at this
        omega
      | cons i rest =>
        rw [hrange, List.foldlM_cons] at h
        cases hstep : cascadeStep lib es pos gen ([], [], k1) i with
        | error m => rw [hstep, except_bind_error] at h; cases h
        | ok st2 =>
          unfold cascadeStep at hstep
          dsimp only at hstep
          cases hcc : createConditionalRouter lib (i + 1)
              (pos.1 + 600 + 300 * (i : Int), pos.2 + 150 * (i : Int))
              (match es.get? i with
               | some e => e.dst
               | none => "branch_" ++ toString (i + 1)) gen k1 with
          | error m => rw [hcc, except_bind_error] at hstep; cases hstep
          | ok y => exact createConditionalRouter_ok_imp hcc

lemma routingFold_inv (lib : Library) (apiKey : String) (gen : Nat → String)
    (asm : Assembled)
    (hasm : ∀ q ∈ asm.idMap, q.2 ∈ asm.flowNodes.map (·.id)) :
    ∀ (fl : List (String × List VEdge)), (∀ p ∈ fl, 2 ≤ p.2.length) →
      ∀ (st rr : RoutingResult),
        fl.foldlM (routingStep lib apiKey gen asm) st = .ok rr →
        ∃ (ns : List FlowNode) (infos : List RoutingInfo),
          rr = ⟨st.newNodes ++ ns, st.registry ++ infos, st.k + ns.length⟩ ∧
          List.Forall₂ (fun p info => registryEntryOK asm p info ns)
            (fl.filter (fun p => (asm.idMap.lookup p.1).isSome)) infos ∧
          ns.length = ((fl.filter (fun p => (asm.idMap.lookup p.1).isSome)).map
            (fun p => p.2.length - 1 + 1)).sum := by
  intro fl
  induction fl with
  | nil =>
    intro _ st rr h
    rw [List.foldlM_nil] at h
    have hst : st = rr := by
      injection h with h2
    refine ⟨[], [], ?_, List.Forall₂.nil, rfl⟩
    rw [← hst]
    simp
  | cons p fl ih =>
    intro hfl st rr h
    have hlen2 : 2 ≤ p.2.length := hfl p (List.mem_cons_self _ _)
    have hfl2 : ∀ q ∈ fl, 2 ≤ q.2.length := fun q hq => hfl q (List.mem_cons_of_mem _ hq)
    rw [List.foldlM_cons] at h
    cases hlk : asm.idMap.lookup p.1 with
    | none =>
      have hstep : routingStep lib apiKey gen asm st p = pure st := by
        unfold routingStep
        rw [hlk]
      rw [hstep, except_bind_pure] at h
      rcases ih hfl2 st rr h with ⟨ns, infos, heq, hrel, hlen⟩
      refine ⟨ns, infos, heq, ?_, ?_⟩
      · have hc : (asm.idMap.lookup p.1).isSome = false := by rw [hlk]; rfl
        simpa [List.filter_cons, hc] using hrel
      · have hc : (asm.idMap.lookup p.1).isSome = false := by rw [hlk]; rfl
        simpa [List.filter_cons, hc] using hlen
    | some sid =>
      have hmem : (p.1, sid) ∈ asm.idMap := mem_of_lookup_eq_some hlk
      have hsid : sid ∈ asm.flowNodes.map (·.id) := hasm _ hmem
      rcases List.mem_map.1 hsid with ⟨n0, hn0, hn0id⟩
      have hfindSome : ((asm.flowNodes ++ st.newNodes).find?
          (fun n => n.id = sid)).isSome = true := by
        rw [List.find?_isSome]
        exact ⟨n0, List.mem_append_left _ hn0, by simp [hn0id]⟩
      rcases Option.isSome_iff_exists.1 hfindSome with ⟨srcNode, hfind⟩
      cases hins : insertRoutingLogic lib apiKey p.1 p.2 srcNode.pos gen st.k with
      | error m =>
        have hstep : routingStep lib apiKey gen asm st p = .error m := by
          unfold routingStep
          rw [hlk]
          dsimp only
          rw [hfind]
          dsimp only
          rw [hins, except_bind_error]
        rw [hstep, except_bind_error] at h
        cases h
      | ok res =>
        rcases res with ⟨nodes, info, k1⟩
        obtain ⟨hA, hcr⟩ := insertRoutingLogic_ok_inv hlen2 hins
        rcases insertRoutingLogic_spec hA hcr apiKey p.1 p.2 srcNode.pos gen st.k with
          ⟨ra, gates, info0, hins0, hrat, hsn, hre, hnb, hrid, hgid, hglen, hsimple, hcasc,
            hgspec⟩
        rw [hins] at hins0
        injection hins0 with hins1
        obtain ⟨hnodes, hinfo, hk1⟩ : nodes = ra :: gates ∧ info = info0
            ∧ k1 = st.k + 1 + gates.length := by
          refine ⟨?_, ?_, ?_⟩
          · exact congrArg Prod.fst hins1
          · have := congrArg Prod.snd hins1
            exact congrArg Prod.fst this
          · have := congrArg Prod.snd hins1
            exact congrArg Prod.snd this
        subst hnodes hk1
        have hstep : routingStep lib apiKey gen asm st p
            = .ok ⟨st.newNodes ++ (ra :: gates), st.registry ++ [info],
                st.k + 1 + gates.length⟩ := by
          unfold routingStep
          rw [hlk]
          dsimp only
          rw [hfind]
          dsimp only
          rw [hins, except_bind_ok]
          rfl
        rw [hstep, except_bind_ok] at h
        rcases ih hfl2 ⟨st.newNodes ++ (ra :: gates), st.registry ++ [info],
            st.k + 1 + gates.length⟩ rr h with ⟨ns, infos, heq, hrel, hlen⟩
        refine ⟨(ra :: gates) ++ ns, info :: infos, ?_, ?_, ?_⟩
        · rw [heq]
          dsimp only
          simp only [RoutingResult.mk.injEq, List.append_assoc, List.cons_append,
            List.length_append, List.length_cons]
          refine ⟨trivial, by simp, ?_⟩
          omega
        · have hc : (asm.idMap.lookup p.1).isSome = true := by rw [hlk]; rfl
          rw [List.filter_cons_of_pos (by simp [hc])]
          refine List.Forall₂.cons ?_ ?_
          · subst hinfo
            refine ⟨hsn, hre, hnb, hc, ⟨ra, by simp, hrid.symm, hrat⟩, ?_, ?_, ?_, ?_⟩
            · rw [hgid, List.length_map, hglen]
            · intro he
              exact hsimple he
            · intro he
              exact hcasc he
            · intro j hj
              have hj2 := hj
              rw [hgid, List.length_map] at hj2
              refine ⟨gates.get ⟨j, hj2⟩, by simp [List.get_mem], ?_, hgspec j hj2⟩
              rw [List.get_of_eq hgid ⟨j, hj⟩]
              simp [List.get_map]
          · refine List.Forall₂.imp ?_ hrel
            intro a b hab
            exact registryEntryOK_mono (fun n hn => by
              simp only [List.mem_append]
              exact Or.inr hn) hab
        · have hc : (asm.idMap.lookup p.1).isSome = true := by rw [hlk]; rfl
          rw [List.filter_cons_of_pos (by simp [hc])]
          simp only [List.map_cons, List.sum_cons, List.length_append, List.length_cons]
          rw [hlen]
          have hgt : gates.length = p.2.length - 1 := hglen
          omega

lemma mem_firstLevel_len {g : VGraph} {p : String × List VEdge}
    (h : p ∈ firstLevelBranching g) : 2 ≤ p.2.length := by
  unfold firstLevelBranching at h
  have h2 := (List.mem_filter.1 h).1
  unfold findBranchingNodes at h2
  have h3 := (List.mem_filter.1 h2).2
  simpa using h3

lemma routingPhase_inv {lib : Library} {apiKey : String} {gen : Nat → String} {g : VGraph}
    {rr : RoutingResult}
    (h : routingPhase lib apiKey gen (nodePhase lib apiKey gen g) (firstLevelBranching g)
      = .ok rr) :
    List.Forall₂ (fun p info => registryEntryOK (nodePhase lib apiKey gen g) p info
        rr.newNodes)
      ((firstLevelBranching g).filter
        (fun p => ((nodePhase lib apiKey gen g).idMap.lookup p.1).isSome)) rr.registry ∧
    rr.newNodes.length = (((firstLevelBranching g).filter
      (fun p => ((nodePhase lib apiKey gen g).idMap.lookup p.1).isSome)).map
        (fun p => p.2.length - 1 + 1)).sum := by
  unfold routingPhase at h
  rcases routingFold_inv lib apiKey gen (nodePhase lib apiKey gen g)
      (nodePhase_idMap_mem lib apiKey gen g) (firstLevelBranching g)
      (fun p hp => mem_firstLevel_len hp)
      ⟨[], [], (nodePhase lib apiKey gen g).k⟩ rr h with ⟨ns, infos, heq, hrel, hlen⟩
  constructor
  · rw [heq]
    simpa using hrel
  · rw [heq]
    simpa using hlen

lemma createEdge_source (a b : String) (c : Option VCondition) :
    (createEdge a b c).source = a := rfl

lemma createEdge_target (a b : String) (c : Option VCondition) :
    (createEdge a b c).target = b := rfl

lemma createEdgeSpecificOutput_source (a b o : String) :
    (createEdgeSpecificOutput a b o).source = a := rfl

lemma createEdgeSpecificOutput_target (a b o : String) :
    (createEdgeSpecificOutput a b o).target = b := rfl

lemma lookup_mem_values {B : Type} {m : List (String × B)} {a : String} {b : B}
    (h : m.lookup a = some b) : b ∈ m.map (·.2) :=
  List.mem_map.2 ⟨(a, b), mem_of_lookup_eq_some h, rfl⟩

lemma chatInputStartEdges_wf (lib : Library) (apiKey : String) (gen : Nat → String)
    (g : VGraph) :
    ∀ e ∈ chatInputStartEdges g (nodePhase lib apiKey gen g),
      e.source ∈ (nodePhase lib apiKey gen g).flowNodes.map (·.id) ∧
      e.target ∈ (nodePhase lib apiKey gen g).flowNodes.map (·.id) := by
  intro e he
  unfold chatInputStartEdges at he
  cases hci : (nodePhase lib apiKey gen g).chatInputId with
  | none =>
    rw [hci] at he
    simp at he
  | some ci =>
    rw [hci] at he
    cases hn : g.nodes with
    | nil =>
      rw [hn] at he
      simp at he
    | cons n0 rest =>
      rw [hn] at he
      dsimp only at he
      cases hlk : (nodePhase lib apiKey gen g).idMap.lookup
          (((n0 :: rest).find? (fun x => x.isStart)).getD n0).name with
      | none =>
        rw [hlk] at he
        simp at he
      | some fid =>
        rw [hlk] at he
        have hee : e = createEdge ci fid none := by simpa using he
        subst hee
        rw [createEdge_source, createEdge_target]
        exact ⟨nodePhase_chatInput_mem lib apiKey gen g ci hci,
          nodePhase_idMap_mem lib apiKey gen g _ (mem_of_lookup_eq_some hlk)⟩

lemma directEdges_mem_values (g : VGraph) (idMap : List (String × String))
    (fln : List String) :
    ∀ e ∈ directEdges g idMap fln,
      e.source ∈ idMap.map (·.2) ∧ e.target ∈ idMap.map (·.2) := by
  intro e he
  unfold directEdges at he
  rcases List.mem_filterMap.1 he with ⟨a, ha, hfa⟩
  by_cases hsrc : a.src ∈ fln
  · rw [if_pos hsrc] at hfa
    cases hfa
  · rw [if_neg hsrc] at hfa
    cases hf : idMap.lookup a.src with
    | none => rw [hf] at hfa; cases hfa
    | some fi =>
      cases ht : idMap.lookup a.dst with
      | none => rw [hf, ht] at hfa; cases hfa
      | some ti =>
        rw [hf, ht] at hfa
        injection hfa with hfa2
        subst hfa2
        rw [createEdge_source, createEdge_target]
        exact ⟨lookup_mem_values hf, lookup_mem_values ht⟩

lemma registryEntryOK_gate_mem {asm : Assembled} {p : String × List VEdge}
    {info : RoutingInfo} {ns : List FlowNode} (hok : registryEntryOK asm p info ns) :
    ∀ gid ∈ gateIds info.pattern, gid ∈ ns.map (·.id) := by
  intro gid hgid
  rcases List.mem_iff_get.1 hgid with ⟨⟨j, hj⟩, hget⟩
  rcases hok.gatesOK j hj with ⟨gn, hgn, hid, _⟩
  exact List.mem_map.2 ⟨gn, hgn, by rw [hid, hget]⟩

lemma registryEntryOK_agent_mem {asm : Assembled} {p : String × List VEdge}
    {info : RoutingInfo} {ns : List FlowNode} (hok : registryEntryOK asm p info ns) :
    info.routerAgentId ∈ ns.map (·.id) := by
  rcases hok.agent with ⟨ra, hra, hid, _⟩
  exact List.mem_map.2 ⟨ra, hra, hid⟩

lemma routingEdgesFor_wf {asm : Assembled} {p : String × List VEdge} {info : RoutingInfo}
    {ns : List FlowNode} (hok : registryEntryOK asm p info ns)
    (hci : ∀ ci, asm.chatInputId = some ci → ci ∈ asm.flowNodes.map (·.id))
    (hmap : ∀ q ∈ asm.idMap, q.2 ∈ asm.flowNodes.map (·.id)) (startName : Option String) :
    ∀ e ∈ routingEdgesFor asm.chatInputId startName asm.idMap info,
      e.source ∈ (asm.flowNodes ++ ns).map (·.id) ∧
      e.target ∈ (asm.flowNodes ++ ns).map (·.id) := by
  have hA : info.routerAgentId ∈ (asm.flowNodes ++ ns).map (·.id) := by
    have := registryEntryOK_agent_mem hok
    simp only [List.map_append, List.mem_append]
    exact Or.inr this
  have hG : ∀ gid ∈ gateIds info.pattern, gid ∈ (asm.flowNodes ++ ns).map (·.id) := by
    intro gid hgid
    have := registryEntryOK_gate_mem hok gid hgid
    simp only [List.map_append, List.mem_append]
    exact Or.inr this
  have hV : ∀ {x v : String}, asm.idMap.lookup x = some v →
      v ∈ (asm.flowNodes ++ ns).map (·.id) := by
    intro x v hxv
    have := hmap _ (mem_of_lookup_eq_some hxv)
    simp only [List.map_append, List.mem_append]
    exact Or.inl this
  have hHead : ∀ e ∈ (if asm.chatInputId.isSome ∧ startName = some info.sourceName then
        [createEdge (asm.chatInputId.getD "") info.routerAgentId none]
      else [createEdge ((asm.idMap.lookup info.sourceName).getD "") info.routerAgentId none]),
      e.source ∈ (asm.flowNodes ++ ns).map (·.id) ∧
      e.target ∈ (asm.flowNodes ++ ns).map (·.id) := by
    intro e he
    split at he
    case isTrue hcond =>
      rcases Option.isSome_iff_exists.1 hcond.1 with ⟨ci, hcieq⟩
      have hee : e = createEdge (asm.chatInputId.getD "") info.routerAgentId none := by
        simpa using he
      subst hee
      rw [createEdge_source, createEdge_target]
      refine ⟨?_, hA⟩
      rw [hcieq]
      simp only [Option.getD_some, List.map_append, List.mem_append]
      exact Or.inl (hci ci hcieq)
    case isFalse hcond =>
      have hee : e = createEdge ((asm.idMap.lookup info.sourceName).getD "")
          info.routerAgentId none := by simpa using he
      subst hee
      rw [createEdge_source, createEdge_target]
      refine ⟨?_, hA⟩
      have hs := hok.mapped
      rw [← hok.sname] at hs
      rcases Option.isSome_iff_exists.1 hs with ⟨sid, hsid⟩
      rw [hsid]
      simpa using hV hsid
  intro e he
  unfold routingEdgesFor at he
  cases hpat : info.pattern with
  | simple crId =>
    rw [hpat] at he
    dsimp only at he
    rw [List.mem_append, List.mem_append, List.mem_append] at he
    have hcr : crId ∈ (asm.flowNodes ++ ns).map (·.id) := by
      apply hG
      rw [hpat]
      simp [gateIds]
    rcases he with ((he | he) | he) | he
    · exact hHead e (by simpa [hpat] using he)
    · have hee : e = createEdge info.routerAgentId crId none := by simpa using he
      subst hee
      rw [createEdge_source, createEdge_target]
      exact ⟨hA, hcr⟩
    · cases hr0 : info.redges.get? 0 with
      | none => rw [hr0] at he; simp at he
      | some e0 =>
        rw [hr0] at he
        dsimp only at he
        cases hlk : asm.idMap.lookup e0.dst with
        | none => rw [hlk] at he; simp at he
        | some tid =>
          rw [hlk] at he
          have hee : e = createEdgeSpecificOutput crId tid "true_result" := by simpa using he
          subst hee
          rw [createEdgeSpecificOutput_source, createEdgeSpecificOutput_target]
          exact ⟨hcr, hV hlk⟩
    · cases hr1 : info.redges.get? 1 with
      | none => rw [hr1] at he; simp at he
      | some e1 =>
        rw [hr1] at he
        dsimp only at he
        cases hlk : asm.idMap.lookup e1.dst with
        | none => rw [hlk] at he; simp at he
        | some tid =>
          rw [hlk] at he
          have hee : e = createEdgeSpecificOutput crId tid "false_result" := by simpa using he
          subst hee
          rw [createEdgeSpecificOutput_source, createEdgeSpecificOutput_target]
          exact ⟨hcr, hV hlk⟩
  | cascade gids =>
    rw [hpat] at he
    dsimp only at he
    rw [List.mem_append, List.mem_append] at he
    have hGg : ∀ gid ∈ gids, gid ∈ (asm.flowNodes ++ ns).map (·.id) := by
      intro gid hgid
      apply hG
      rw [hpat]
      simpa [gateIds] using hgid
    rcases he with (he | he) | he
    · exact hHead e (by simpa [hpat] using he)
    · cases hh : gids.head? with
      | none => rw [hh] at he; simp at he
      | some g0 =>
        rw [hh] at he
        have hee : e = createEdge info.routerAgentId g0 none := by simpa using he
        subst hee
        rw [createEdge_source, createEdge_target]
        exact ⟨hA, hGg g0 (List.mem_of_mem_head? hh)⟩
    · rcases List.mem_flatMap.1 he with ⟨q, hq, hqe⟩
      rcases q with ⟨i, gid⟩
      have hgid : gid ∈ gids := by
        have := List.mem_enum_iff_get?.1 hq
        exact List.get?_mem this
      have hgmem : gid ∈ (asm.flowNodes ++ ns).map (·.id) := hGg gid hgid
      dsimp only at hqe
      rw [List.mem_append] at hqe
      rcases hqe with hqe | hqe
      · cases hr : info.redges.get? i with
        | none => rw [hr] at hqe; simp at hqe
        | some ei =>
          rw [hr] at hqe
          dsimp only at hqe
          cases hlk : asm.idMap.lookup ei.dst with
          | none => rw [hlk] at hqe; simp at hqe
          | some tid =>
            rw [hlk] at hqe
            have hee : e = createEdgeSpecificOutput gid tid "true_result" := by
              simpa using hqe
            subst hee
            rw [createEdgeSpecificOutput_source, createEdgeSpecificOutput_target]
            exact ⟨hgmem, hV hlk⟩
      · by_cases hi : i < gids.length - 1
        · rw [if_pos hi] at hqe
          cases hnext : gids.get? (i + 1) with
          | none => rw [hnext] at hqe; simp at hqe
          | some ng =>
            rw [hnext] at hqe
            have hee : e = createEdgeSpecificOutput gid ng "false_result" := by
              simpa using hqe
            subst hee
            rw [createEdgeSpecificOutput_source, createEdgeSpecificOutput_target]
            exact ⟨hgmem, hGg ng (List.get?_mem hnext)⟩
        · rw [if_neg hi] at hqe
          cases hlast : info.redges.getLast? with
          | none => rw [hlast] at hqe; simp at hqe
          | some el =>
            rw [hlast] at hqe
            dsimp only at hqe
            cases hlk : asm.idMap.lookup el.dst with
            | none => rw [hlk] at hqe; simp at hqe
            | some tid =>
              rw [hlk] at hqe
              have hee : e = createEdgeSpecificOutput gid tid "false_result" := by
                simpa using hqe
              subst hee
              rw [createEdgeSpecificOutput_source, createEdgeSpecificOutput_target]
              exact ⟨hgmem, hV hlk⟩

lemma terminalStep_ok_cases {asm : Assembled} {registry : List RoutingInfo}
    {reachable : List String} {startName : Option String} {co : String}
    {acc res : List FlowEdge} {tid : String}
    (h : terminalStep asm registry reachable startName co acc tid = .ok res) :
    res = acc ∨ res = acc ++ [createEdge tid co none] := by
  unfold terminalStep at h
  dsimp only at h
  split at h
  · exact Or.inl (Except.ok.inj h).symm
  · split at h
    · split at h
      · exact absurd h (by simp)
      · split at h
        · exact Or.inl (Except.ok.inj h).symm
        · exact Or.inr (Except.ok.inj h).symm
    · exact Or.inr (Except.ok.inj h).symm

lemma terminalFold_wf {asm : Assembled} {registry : List RoutingInfo}
    {reachable : List String} {startName : Option String} {co : String} :
    ∀ (ts : List String) (acc res : List FlowEdge),
      (∀ t ∈ ts, t ∈ asm.idMap.map (·.2)) →
      (∀ e ∈ acc, ∃ t ∈ asm.idMap.map (·.2), e = createEdge t co none) →
      ts.foldlM (terminalStep asm registry reachable startName co) acc = .ok res →
      ∀ e ∈ res, ∃ t ∈ asm.idMap.map (·.2), e = createEdge t co none := by
  intro ts
  induction ts with
  | nil =>
    intro acc res _ hacc h
    simp only [List.foldlM_nil] at h
    have : res = acc := (Except.ok.inj h).symm
    subst this
    exact hacc
  | cons t ts ih =>
    intro acc res hts hacc h
    rw [List.foldlM_cons] at h
    cases hstep : terminalStep asm registry reachable startName co acc t with
    | error msg => rw [hstep, except_bind_error] at h; exact absurd h (by simp)
    | ok acc2 =>
      rw [hstep, except_bind_ok] at h
      have hts2 : ∀ u ∈ ts, u ∈ asm.idMap.map (·.2) := fun u hu => hts u (List.mem_cons_of_mem t hu)
      have hacc2 : ∀ e ∈ acc2, ∃ u ∈ asm.idMap.map (·.2), e = createEdge u co none := by
        rcases terminalStep_ok_cases hstep with hc | hc
        · subst hc; exact hacc
        · subst hc
          intro e he
          rw [List.mem_append] at he
          rcases he with he | he
          · exact hacc e he
          · have hee : e = createEdge t co none := by simpa using he
            exact ⟨t, hts t (List.mem_cons_self t ts), hee⟩
      exact ih acc2 res hts2 hacc2 h

lemma terminalEdges_wf {g : VGraph} {asm : Assembled} {registry : List RoutingInfo}
    {edgesSoFar res : List FlowEdge}
    (h : terminalEdges g asm registry edgesSoFar = .ok res) :
    ∀ e ∈ res, ∃ co t, asm.chatOutputId = some co ∧ t ∈ asm.idMap.map (·.2) ∧
      e = createEdge t co none := by
  unfold terminalEdges at h
  cases hco : asm.chatOutputId with
  | none =>
    rw [hco] at h
    dsimp only at h
    have : res = [] := (Except.ok.inj h).symm
    subst this
    intro e he
    exact absurd he (by simp)
  | some co =>
    rw [hco] at h
    dsimp only at h
    split at h
    · have : res = [] := (Except.ok.inj h).symm
      subst this
      intro e he
      exact absurd he (by simp)
    · intro e he
      have := terminalFold_wf _ [] res
        (by intro t ht; exact List.mem_of_mem_filter ht)
        (by intro e he; exact absurd he (by simp)) h e he
      rcases this with ⟨t, ht, hee⟩
      exact ⟨co, t, rfl, ht, hee⟩

lemma forall2_mem_right {A B : Type} {R : A → B → Prop} :
    ∀ {l1 : List A} {l2 : List B}, List.Forall₂ R l1 l2 → ∀ {b}, b ∈ l2 → ∃ a ∈ l1, R a b := by
  intro l1 l2 h
  induction h with
  | nil => intro b hb; cases hb
  | cons hr _ ih =>
    intro b hb
    rcases List.mem_cons.1 hb with hb | hb
    · subst hb
      exact ⟨_, List.mem_cons_self _ _, hr⟩
    · rcases ih hb with ⟨a, ha, har⟩
      exact ⟨a, List.mem_cons_of_mem _ ha, har⟩

lemma insertRoutingLogic_error {lib : Library} (hA : libHas lib "Agent" = false)
    (apiKey name : String) (es : List VEdge) (pos : Int × Int) (gen : Nat → String) (k : Nat) :
    insertRoutingLogic lib apiKey name es pos gen k
      = .error "Agent template required for routing" := by
  unfold insertRoutingLogic
  dsimp only
  rw [createRouterAgent_error hA]
  rfl

lemma routingStep_error {lib : Library} {apiKey : String} {gen : Nat → String}
    {asm : Assembled} {st : RoutingResult} {p : String × List VEdge} {sid : String}
    (hA : libHas lib "Agent" = false) (hm : asm.idMap.lookup p.1 = some sid)
    (hsid : sid ∈ asm.flowNodes.map (·.id)) :
    routingStep lib apiKey gen asm st p = .error "Agent template required for routing" := by
  unfold routingStep
  rw [hm]
  dsimp only
  have hex : ((asm.flowNodes ++ st.newNodes).find? (fun n => n.id = sid)).isSome := by
    rw [List.find?_isSome]
    rcases List.mem_map.1 hsid with ⟨x, hx, hxe⟩
    exact ⟨x, List.mem_append_left _ hx, by simp [hxe]⟩
  rcases Option.isSome_iff_exists.1 hex with ⟨srcNode, hfind⟩
  rw [hfind]
  dsimp only
  rw [insertRoutingLogic_error hA]
  rfl

lemma routingFold_error {lib : Library} {apiKey : String} {gen : Nat → String}
    {asm : Assembled} (hA : libHas lib "Agent" = false)
    (hmap : ∀ q ∈ asm.idMap, q.2 ∈ asm.flowNodes.map (·.id)) :
    ∀ (fl : List (String × List VEdge)) (st : RoutingResult),
      (∃ p ∈ fl, (asm.idMap.lookup p.1).isSome) →
      ∃ m, fl.foldlM (routingStep lib apiKey gen asm) st = .error m := by
  intro fl
  induction fl with
  | nil =>
    intro st h
    rcases h with ⟨p, hp, _⟩
    cases hp
  | cons q fl ih =>
    intro st h
    rw [List.foldlM_cons]
    cases hstep : routingStep lib apiKey gen asm st q with
    | error m =>
      exact ⟨m, rfl⟩
    | ok st2 =>
      rcases h with ⟨p, hp, hps⟩
      rcases List.mem_cons.1 hp with hpq | hp
      · subst hpq
        rcases Option.isSome_iff_exists.1 hps with ⟨sid, hsid⟩
        have hmem : sid ∈ asm.flowNodes.map (·.id) :=
          hmap _ (mem_of_lookup_eq_some hsid)
        rw [routingStep_error hA hsid hmem] at hstep
        cases hstep
      · rw [except_bind_ok]
        exact ih st2 ⟨p, hp, hps⟩

lemma foldl_nodeStep_lookup {lib : Library} {apiKey : String} {gen : Nat → String}
    {tgts : List String} {startName : Option String} (hlib : lib ≠ []) :
    ∀ (l : List (Nat × VNode)) (acc : NodeAcc) (name : String),
      (((l.foldl (nodePhaseStep lib apiKey gen tgts startName) acc).idMap.lookup name).isSome
        = true)
      ↔ ((acc.idMap.lookup name).isSome = true ∨
          ∃ q ∈ l, (q : Nat × VNode).2.name = name ∧
            (name ∈ tgts ∨ startName = some name)) := by
  intro l
  induction l with
  | nil =>
    intro acc name
    simp
  | cons q l ih =>
    intro acc name
    rw [List.foldl_cons, ih]
    have hstep :
        (((nodePhaseStep lib apiKey gen tgts startName acc q).idMap.lookup name).isSome = true)
        ↔ ((acc.idMap.lookup name).isSome = true ∨
            (q.2.name = name ∧ (name ∈ tgts ∨ startName = some name))) := by
      unfold nodePhaseStep
      rcases q with ⟨i, node⟩
      dsimp only
      by_cases hcond : node.name ∈ tgts ∨ startName = some node.name
      · rw [if_pos hcond]
        cases hc : convertVapiNode lib apiKey node i gen acc.k with
        | none =>
          exact absurd (convertVapiNode_isSome hlib apiKey node i gen acc.k)
            (by rw [hc]; simp)
        | some r =>
          rcases r with ⟨n, k1⟩
          dsimp only
          rw [lookup_dictInsert]
          by_cases hne : name = node.name
          · subst hne
            simp [hcond]
          · rw [if_neg hne]
            simp [hne, Ne.symm hne]
      · rw [if_neg hcond]
        constructor
        · exact Or.inl
        · rintro (h | ⟨rfl, hcond2⟩)
          · exact h
          · exact absurd hcond2 hcond
    rw [hstep]
    rw [List.exists_mem_cons_iff]
    exact or_assoc

lemma countP_enumFrom (p : VNode → Bool) :
    ∀ (l : List VNode) (n : Nat),
      (List.enumFrom n l).countP (fun q => p q.2) = l.countP p := by
  intro l
  induction l with
  | nil =>
    intro n
    rfl
  | cons x xs ih =>
    intro n
    simp [List.enumFrom, List.countP_cons, ih]

lemma length_filter_enum (p : VNode → Bool) (l : List VNode) :
    (l.enum.filter (fun q => p q.2)).length = (l.filter p).length := by
  rw [← List.countP_eq_length_filter, ← List.countP_eq_length_filter]
  exact countP_enumFrom p l 0

lemma ciPart_len (lib : Library) (gen : Nat → String) :
    (ciPart lib gen).1.length = if libHas lib "ChatInput" = true then 1 else 0 := by
  unfold ciPart cloneComponent libHas
  cases h : lib.lookup "ChatInput" <;> simp [h]

lemma coPart_len (lib : Library) (gen : Nat → String) (prior : List FlowNode) (k : Nat) :
    (coPart lib gen prior k).1.length = if libHas lib "ChatOutput" = true then 1 else 0 := by
  unfold coPart cloneComponent libHas
  cases h : lib.lookup "ChatOutput" <;> simp [h]

lemma foldl_nodeStep_len {lib : Library} {apiKey : String} {gen : Nat → String}
    {tgts : List String} {startName : Option String} (hlib : lib ≠ []) :
    ∀ (l : List (Nat × VNode)) (acc : NodeAcc),
      (l.foldl (nodePhaseStep lib apiKey gen tgts startName) acc).flowNodes.length
        = acc.flowNodes.length
          + (l.filter (fun q => decide ((q : Nat × VNode).2.name ∈ tgts
              ∨ startName = some q.2.name))).length := by
  intro l
  induction l with
  | nil =>
    intro acc
    simp
  | cons q l ih =>
    intro acc
    rw [List.foldl_cons, ih]
    rcases q with ⟨i, node⟩
    unfold nodePhaseStep
    dsimp only
    by_cases hcond : node.name ∈ tgts ∨ startName = some node.name
    · rw [if_pos hcond]
      cases hc : convertVapiNode lib apiKey node i gen acc.k with
      | none =>
        exact absurd (convertVapiNode_isSome hlib apiKey node i gen acc.k)
          (by rw [hc]; simp)
      | some r =>
        rcases r with ⟨n, k1⟩
        dsimp only
        rw [List.filter_cons_of_pos (by simpa using hcond)]
        simp only [List.length_append, List.length_cons, List.length_nil]
        omega
    · rw [if_neg hcond]
      rw [List.filter_cons_of_neg (by simpa using hcond)]

lemma convertedPart_len {lib : Library} (hlib : lib ≠ []) (apiKey : String)
    (gen : Nat → String) (g : VGraph) (k0 : Nat) :
    (convertedPart lib apiKey gen g k0).flowNodes.length
      = (g.nodes.filter (fun n => decide (n.name ∈ g.edges.map (·.dst)
          ∨ g.nodes.head?.map (·.name) = some n.name))).length := by
  unfold convertedPart
  rw [foldl_nodeStep_len hlib]
  dsimp only
  simp only [List.length_nil, Nat.zero_add]
  exact length_filter_enum (fun n => decide (n.name ∈ g.edges.map (·.dst)
    ∨ g.nodes.head?.map (·.name) = some n.name)) g.nodes

/-! ### Lemmas about the BFS depth computation -/

lemma lookup_isSome_iff {B : Type} (D : List (String × B)) (x : String) :
    ((D.lookup x).isSome = true) ↔ x ∈ D.map (·.1) := by
  induction D with
  | nil => simp
  | cons p ps ih =>
    rcases p with ⟨a, b⟩
    by_cases hx : x = a
    · subst hx
      rw [lookup_cons_eq]
      simp
    · rw [lookup_cons_ne b ps hx]
      simp only [List.map_cons, List.mem_cons]
      rw [ih]
      constructor
      · exact Or.inr
      · rintro (h | h)
        · exact absurd h hx
        · exact h

lemma lookup_snoc {B : Type} (D : List (String × B)) (k x : String) (v : B) :
    (D ++ [(k, v)]).lookup x
      = match D.lookup x with
        | some d => some d
        | none => if x = k then some v else none := by
  rw [lookup_append_alt]
  cases hD : D.lookup x with
  | some d => rfl
  | none =>
    by_cases hx : x = k
    · subst hx
      rw [lookup_cons_eq]
      simp
    · rw [lookup_cons_ne v [] hx]
      simp [hx]

lemma lookup_snoc_old {B : Type} {D : List (String × B)} {x : String} {d : B}
    (k : String) (v : B) (h : D.lookup x = some d) : (D ++ [(k, v)]).lookup x = some d := by
  rw [lookup_snoc, h]

lemma lookup_snoc_new {B : Type} {D : List (String × B)} {k : String} (v : B)
    (h : D.lookup k = none) : (D ++ [(k, v)]).lookup k = some v := by
  rw [lookup_snoc, h]
  simp

lemma lookup_snoc_cases {B : Type} {D : List (String × B)} {k x : String} {v d : B}
    (h : (D ++ [(k, v)]).lookup x = some d) :
    D.lookup x = some d ∨ (x = k ∧ d = v ∧ D.lookup x = none) := by
  rw [lookup_snoc] at h
  cases hD : D.lookup x with
  | some d0 =>
    rw [hD] at h
    exact Or.inl h
  | none =>
    rw [hD] at h
    by_cases hx : x = k
    · rw [if_pos hx] at h
      exact Or.inr ⟨hx, (Option.some.inj h).symm, rfl⟩
    · rw [if_neg hx] at h
      cases h

lemma nbrs_subset_adjTargets {adj : List (String × List String)} {x nb : String}
    (h : nb ∈ nbrs adj x) : nb ∈ adjTargets adj := by
  unfold nbrs at h
  cases hl : adj.lookup x with
  | none => rw [hl] at h; simp at h
  | some l =>
    rw [hl] at h
    simp only [Option.getD_some] at h
    exact List.mem_flatMap.2 ⟨(x, l), mem_of_lookup_eq_some hl, h⟩

lemma visitInv_step {adj : List (String × List String)} {s : String} {allowed : List String}
    {cur : String} {dcur : Nat} {D : List (String × Nat)} {Q : List String} {nb : String}
    (hcur : ReachN adj s cur dcur) (hnb : nb ∈ nbrs adj cur)
    (halw : ∀ t, t ∈ adjTargets adj → t ∈ allowed)
    (inv : VisitInv adj s allowed dcur (D, Q)) (hfresh : D.lookup nb = none) :
    VisitInv adj s allowed dcur (D ++ [(nb, dcur + 1)], Q ++ [nb]) := by
  have hnbk : nb ∉ D.map (·.1) := by
    intro hmem
    have h2 := (lookup_isSome_iff D nb).2 hmem
    rw [hfresh] at h2
    simp at h2
  have hval : ∀ q ∈ Q, ((D ++ [(nb, dcur + 1)]).lookup q).getD 0 = (D.lookup q).getD 0 := by
    intro q hq
    rcases Option.isSome_iff_exists.1 (inv.queueRec q hq) with ⟨d, hd⟩
    rw [lookup_snoc_old nb (dcur + 1) hd, hd]
  have hnbval : ((D ++ [(nb, dcur + 1)]).lookup nb).getD 0 = dcur + 1 := by
    rw [lookup_snoc_new (dcur + 1) hfresh]
    rfl
  have hnbQ : nb ∉ Q := by
    intro hq
    have h2 := inv.queueRec nb hq
    rw [hfresh] at h2
    simp at h2
  refine ⟨?_, ?_, ?_, ?_, ?_, ?_, ?_, ?_, ?_, ?_⟩
  · rw [List.map_append]
    simp only [List.map_cons, List.map_nil]
    rw [List.nodup_append]
    refine ⟨inv.nodup, List.nodup_singleton nb, ?_⟩
    intro a ha hb
    rw [List.mem_singleton] at hb
    subst hb
    exact hnbk ha
  · intro k hk
    rw [List.map_append] at hk
    rcases List.mem_append.1 hk with hk | hk
    · exact inv.sub k hk
    · simp only [List.map_cons, List.map_nil, List.mem_singleton] at hk
      subst hk
      exact halw _ (nbrs_subset_adjTargets hnb)
  · exact lookup_snoc_old nb (dcur + 1) inv.startMem
  · intro x d h
    rcases lookup_snoc_cases h with h | ⟨hx, hd, _⟩
    · exact inv.sound x d h
    · subst hx
      subst hd
      exact ReachN.succ hcur hnb
  · intro q hq
    rcases List.mem_append.1 hq with hq | hq
    · rcases Option.isSome_iff_exists.1 (inv.queueRec q hq) with ⟨d, hd⟩
      rw [lookup_snoc_old nb (dcur + 1) hd]
      rfl
    · rw [List.mem_singleton] at hq
      subst hq
      rw [lookup_snoc_new (dcur + 1) hfresh]
      rfl
  · rw [List.nodup_append]
    refine ⟨inv.qnodup, List.nodup_singleton nb, ?_⟩
    intro a ha hb
    rw [List.mem_singleton] at hb
    subst hb
    exact hnbQ ha
  · rw [List.pairwise_append]
    refine ⟨?_, List.pairwise_singleton _ nb, ?_⟩
    · refine List.Pairwise.imp_of_mem ?_ inv.mono
      intro a b ha hb hab
      rw [hval a ha, hval b hb]
      exact hab
    · intro a ha b hb
      rw [List.mem_singleton] at hb
      subst hb
      rw [hval a ha, hnbval]
      exact inv.qup a ha
  · intro q hq
    rcases List.mem_append.1 hq with hq | hq
    · rw [hval q hq]
      exact inv.qup q hq
    · rw [List.mem_singleton] at hq
      subst hq
      rw [hnbval]
  · intro x dx h
    rcases lookup_snoc_cases h with h | ⟨_, hd, _⟩
    · exact inv.allLe x dx h
    · subst hd
      exact Nat.le_refl _
  · intro q hq
    rcases List.mem_append.1 hq with hq | hq
    · rw [hval q hq]
      exact inv.qlo q hq
    · rw [List.mem_singleton] at hq
      subst hq
      rw [hnbval]
      exact Nat.le_succ dcur

lemma bfsVisit_fold {adj : List (String × List String)} {s : String} {allowed : List String}
    {cur : String} {dcur : Nat} (hcur : ReachN adj s cur dcur)
    (halw : ∀ t, t ∈ adjTargets adj → t ∈ allowed) :
    ∀ (ns : List String) (D : List (String × Nat)) (Q : List String),
      (∀ nb ∈ ns, nb ∈ nbrs adj cur) →
      VisitInv adj s allowed dcur (D, Q) →
      VisitInv adj s allowed dcur (ns.foldl (bfsVisit dcur) (D, Q)) ∧
      (∀ x d, D.lookup x = some d →
        (ns.foldl (bfsVisit dcur) (D, Q)).1.lookup x = some d) ∧
      ((ns.foldl (bfsVisit dcur) (D, Q)).1.length + Q.length
        = (ns.foldl (bfsVisit dcur) (D, Q)).2.length + D.length) ∧
      (∀ q ∈ Q, q ∈ (ns.foldl (bfsVisit dcur) (D, Q)).2) ∧
      (∀ nb ∈ ns, ∃ dn, (ns.foldl (bfsVisit dcur) (D, Q)).1.lookup nb = some dn
        ∧ dn ≤ dcur + 1) ∧
      (∀ y, (((ns.foldl (bfsVisit dcur) (D, Q)).1.lookup y).isSome = true) →
        ((D.lookup y).isSome = true) ∨ y ∈ (ns.foldl (bfsVisit dcur) (D, Q)).2) := by
  intro ns
  induction ns with
  | nil =>
    intro D Q hns inv
    refine ⟨inv, fun x d h => h, Nat.add_comm D.length Q.length, fun q hq => hq, ?_, fun y hy => Or.inl hy⟩
    intro nb hnb
    exact absurd hnb (by simp)
  | cons nb ns ih =>
    intro D Q hns inv
    rw [List.foldl_cons]
    have hnb : nb ∈ nbrs adj cur := hns nb (List.mem_cons_self nb ns)
    have hns2 : ∀ t ∈ ns, t ∈ nbrs adj cur := fun t ht => hns t (List.mem_cons_of_mem nb ht)
    cases hfresh : D.lookup nb with
    | some d0 =>
      have hstep : bfsVisit dcur (D, Q) nb = (D, Q) := by
        unfold bfsVisit
        rw [if_pos (by rw [hfresh]; rfl)]
      rw [hstep]
      rcases ih D Q hns2 inv with ⟨i1, i2, i3, i4, i5, i6⟩
      refine ⟨i1, i2, i3, i4, ?_, i6⟩
      intro t ht
      rcases List.mem_cons.1 ht with ht | ht
      · subst ht
        exact ⟨d0, i2 t d0 hfresh, inv.allLe t d0 hfresh⟩
      · exact i5 t ht
    | none =>
      have hstep : bfsVisit dcur (D, Q) nb = (D ++ [(nb, dcur + 1)], Q ++ [nb]) := by
        unfold bfsVisit
        rw [if_neg (by rw [hfresh]; simp)]
      rw [hstep]
      have inv2 : VisitInv adj s allowed dcur (D ++ [(nb, dcur + 1)], Q ++ [nb]) :=
        visitInv_step hcur hnb halw inv hfresh
      rcases ih (D ++ [(nb, dcur + 1)]) (Q ++ [nb]) hns2 inv2 with ⟨i1, i2, i3, i4, i5, i6⟩
      refine ⟨i1, ?_, ?_, ?_, ?_, ?_⟩
      · intro x d h
        exact i2 x d (lookup_snoc_old nb (dcur + 1) h)
      · simp only [List.length_append, List.length_cons, List.length_nil] at i3 ⊢
        omega
      · intro q hq
        exact i4 q (List.mem_append_left _ hq)
      · intro t ht
        rcases List.mem_cons.1 ht with ht | ht
        · subst ht
          exact ⟨dcur + 1, i2 t (dcur + 1) (lookup_snoc_new (dcur + 1) hfresh),
            Nat.le_refl _⟩
        · exact i5 t ht
      · intro y hy
        rcases i6 y hy with hy2 | hy2
        · rcases Option.isSome_iff_exists.1 hy2 with ⟨d, hd⟩
          rcases lookup_snoc_cases hd with hd | ⟨hyk, _, _⟩
          · exact Or.inl (by rw [hd]; rfl)
          · subst hyk
            exact Or.inr (i4 y (List.mem_append_right _ (List.mem_singleton.2 rfl)))
        · exact Or.inr hy2

lemma bfsInv_drained {adj : List (String × List String)} {s : String}
    {allowed : List String} {D : List (String × Nat)}
    (inv : BfsInv adj s allowed D []) : BfsFinal adj s D :=
  ⟨inv.startMem, inv.sound,
   fun y dy hy x hx => inv.closure y dy hy (by simp) x hx⟩

lemma bfsAux_final {adj : List (String × List String)} {s : String} {allowed : List String}
    (halw : ∀ t, t ∈ adjTargets adj → t ∈ allowed) :
    ∀ (fuel : Nat) (D : List (String × Nat)) (Q : List String),
      BfsInv adj s allowed D Q →
      Q.length + allowed.length ≤ fuel + D.length →
      BfsFinal adj s (bfsAux adj fuel D Q) ∧
      (∀ x d, D.lookup x = some d → (bfsAux adj fuel D Q).lookup x = some d) := by
  intro fuel
  induction fuel with
  | zero =>
    intro D Q inv hm
    have hDlen : D.length ≤ allowed.length := by
      have h1 : (D.map (·.1)).Nodup := inv.nodup
      have h2 : D.map (·.1) ⊆ allowed := fun k hk => inv.sub k hk
      have h3 := (h1.subperm h2).length_le
      rw [List.length_map] at h3
      exact h3
    have hQ : Q = [] := List.length_eq_zero.1 (by omega)
    subst hQ
    exact ⟨bfsInv_drained inv, fun x d h => h⟩
  | succ fuel ih =>
    intro D Q inv hm
    cases Q with
    | nil => exact ⟨bfsInv_drained inv, fun x d h => h⟩
    | cons cur rest =>
      rcases Option.isSome_iff_exists.1 (inv.queueRec cur (List.mem_cons_self cur rest)) with
        ⟨dcur, hdcur⟩
      have hreach : ReachN adj s cur dcur := inv.sound cur dcur hdcur
      have hvcur : (D.lookup cur).getD 0 = dcur := by rw [hdcur]; rfl
      have einv : VisitInv adj s allowed dcur (D, rest) := by
        refine ⟨inv.nodup, inv.sub, inv.startMem, inv.sound, ?_, ?_, ?_, ?_, ?_, ?_⟩
        · exact fun q hq => inv.queueRec q (List.mem_cons_of_mem cur hq)
        · exact inv.qnodup.of_cons
        · exact inv.mono.of_cons
        · intro q hq
          rcases Option.isSome_iff_exists.1
              (inv.queueRec q (List.mem_cons_of_mem cur hq)) with ⟨dq, hdq⟩
          rw [hdq]
          have := inv.bound q dq hdq cur (List.mem_cons_self cur rest)
          rw [hvcur] at this
          exact this
        · intro x dx hdx
          have := inv.bound x dx hdx cur (List.mem_cons_self cur rest)
          rw [hvcur] at this
          exact this
        · intro q hq
          have := (List.pairwise_cons.1 inv.mono).1 q hq
          rw [hvcur] at this
          exact this
      rcases bfsVisit_fold hreach halw (nbrs adj cur) D rest (fun nb h => h) einv with
        ⟨f1, f2, f3, f4, f5, f6⟩
      have hstep : bfsAux adj (fuel + 1) D (cur :: rest)
          = bfsAux adj fuel ((nbrs adj cur).foldl (bfsVisit dcur) (D, rest)).1
              ((nbrs adj cur).foldl (bfsVisit dcur) (D, rest)).2 := by
        have h0 : bfsAux adj (fuel + 1) D (cur :: rest)
            = bfsAux adj fuel
                ((nbrs adj cur).foldl (bfsVisit ((D.lookup cur).getD 0)) (D, rest)).1
                ((nbrs adj cur).foldl (bfsVisit ((D.lookup cur).getD 0)) (D, rest)).2 := rfl
        rw [h0, hvcur]
      have inv2 : BfsInv adj s allowed
          ((nbrs adj cur).foldl (bfsVisit dcur) (D, rest)).1
          ((nbrs adj cur).foldl (bfsVisit dcur) (D, rest)).2 := by
        refine ⟨f1.nodup, f1.sub, f1.startMem, f1.sound, f1.queueRec, f1.qnodup,
          ?_, f1.mono, ?_⟩
        · intro y dy hy hynot x hx
          rcases f6 y (by rw [hy]; rfl) with hold | hqy
          · rcases Option.isSome_iff_exists.1 hold with ⟨dy0, hdy0⟩
            have hy2 := f2 y dy0 hdy0
            rw [hy] at hy2
            have hdyeq : dy = dy0 := Option.some.inj hy2
            by_cases hycur : y = cur
            · subst hycur
              have hdc : dy0 = dcur := by
                rw [hdy0] at hdcur
                exact Option.some.inj hdcur
              rcases f5 x hx with ⟨dn, hdn, hle⟩
              exact ⟨dn, hdn, by omega⟩
            · have hyold : y ∉ cur :: rest := by
                intro hmem
                rcases List.mem_cons.1 hmem with hmem | hmem
                · exact hycur hmem
                · exact hynot (f4 y hmem)
              rcases inv.closure y dy0 hdy0 hyold x hx with ⟨dx, hdx, hle⟩
              exact ⟨dx, f2 x dx hdx, by omega⟩
          · exact absurd hqy hynot
        · intro x dx hdx q hq
          have h1 := f1.allLe x dx hdx
          have h2 := f1.qlo q hq
          omega
      have hm2 : ((nbrs adj cur).foldl (bfsVisit dcur) (D, rest)).2.length + allowed.length
          ≤ fuel + ((nbrs adj cur).foldl (bfsVisit dcur) (D, rest)).1.length := by
        simp only [List.length_cons] at hm
        omega
      rw [hstep]
      rcases ih _ _ inv2 hm2 with ⟨g1, g2⟩
      exact ⟨g1, fun x d h => g2 x d (f2 x d h)⟩

lemma addAdj_targets_sub (acc : List (String × List String)) (e : VEdge) :
    ∀ t ∈ adjTargets (addAdj acc e), t ∈ adjTargets acc ∨ t = e.dst := by
  intro t ht
  unfold addAdj at ht
  split at ht
  · exact Or.inl ht
  · split at ht
    · unfold adjTargets at ht ⊢
      rcases List.mem_flatMap.1 ht with ⟨p2, hp2, htp⟩
      rcases List.mem_map.1 hp2 with ⟨p, hp, hpe⟩
      by_cases hk : p.1 = e.src
      · rw [if_pos hk] at hpe
        subst hpe
        dsimp only at htp
        rcases List.mem_append.1 htp with htp | htp
        · exact Or.inl (List.mem_flatMap.2 ⟨p, hp, htp⟩)
        · exact Or.inr (List.mem_singleton.1 htp)
      · rw [if_neg hk] at hpe
        subst hpe
        exact Or.inl (List.mem_flatMap.2 ⟨p, hp, htp⟩)
    · unfold adjTargets at ht ⊢
      rw [List.flatMap_append] at ht
      rcases List.mem_append.1 ht with ht | ht
      · exact Or.inl ht
      · simp only [List.flatMap_cons, List.flatMap_nil, List.append_nil] at ht
        exact Or.inr (List.mem_singleton.1 ht)

lemma buildAdjacency_targets (edges : List VEdge) :
    ∀ t ∈ adjTargets (buildAdjacency edges), t ∈ edges.map (·.dst) := by
  suffices h : ∀ (es : List VEdge) (acc : List (String × List String)),
      ∀ t ∈ adjTargets (es.foldl addAdj acc),
        t ∈ adjTargets acc ∨ t ∈ es.map (·.dst) by
    intro t ht
    rcases h edges [] t ht with h2 | h2
    · exact absurd h2 (by simp [adjTargets])
    · exact h2
  intro es
  induction es with
  | nil =>
    intro acc t ht
    exact Or.inl ht
  | cons e es ih =>
    intro acc t ht
    rw [List.foldl_cons] at ht
    rcases ih (addAdj acc e) t ht with h2 | h2
    · rcases addAdj_targets_sub acc e t h2 with h3 | h3
      · exact Or.inl h3
      · exact Or.inr (by simp [h3])
    · exact Or.inr (List.mem_cons_of_mem _ h2)

lemma bfsInv_init (adj : List (String × List String)) (sn : String)
    (allowed : List String) (hmem : sn ∈ allowed) :
    BfsInv adj sn allowed [(sn, 0)] [sn] := by
  have hlk : ∀ {x : String} {d : Nat}, List.lookup x [(sn, 0)] = some d → x = sn ∧ d = 0 := by
    intro x d h
    by_cases hx : x = sn
    · subst hx
      rw [lookup_cons_eq] at h
      exact ⟨rfl, (Option.some.inj h).symm⟩
    · rw [lookup_cons_ne 0 [] hx] at h
      cases h
  refine ⟨by simp, ?_, lookup_cons_eq sn 0 [], ?_, ?_, List.nodup_singleton sn, ?_, ?_, ?_⟩
  · intro k hk
    simp only [List.map_cons, List.map_nil, List.mem_singleton] at hk
    subst hk
    exact hmem
  · intro x d h
    rcases hlk h with ⟨hx, hd⟩
    subst hx
    subst hd
    exact ReachN.zero
  · intro q hq
    rw [List.mem_singleton] at hq
    subst hq
    rw [lookup_cons_eq]
    rfl
  · intro y dy hy hynot x hx
    rcases hlk hy with ⟨hy2, _⟩
    subst hy2
    exact absurd (List.mem_singleton.2 rfl) hynot
  · exact List.pairwise_singleton _ sn
  · intro x dx hdx q hq
    rcases hlk hdx with ⟨_, hd⟩
    omega

lemma calculateNodeDepths_final {nodes : List VNode} {edges : List VEdge} {st : VNode}
    (hs : startNodeOf nodes = some st) :
    BfsFinal (buildAdjacency edges) st.name (calculateNodeDepths nodes edges) := by
  unfold calculateNodeDepths
  rw [hs]
  dsimp only
  have halw : ∀ t, t ∈ adjTargets (buildAdjacency edges)
      → t ∈ st.name :: edges.map (·.dst) :=
    fun t ht => List.mem_cons_of_mem _ (buildAdjacency_targets edges t ht)
  have hinv := bfsInv_init (buildAdjacency edges) st.name (st.name :: edges.map (·.dst))
    (List.mem_cons_self _ _)
  have hm : [st.name].length + (st.name :: edges.map (·.dst)).length
      ≤ (1 + edges.length) + [(st.name, 0)].length := by
    simp
    omega
  exact (bfsAux_final halw (1 + edges.length) [(st.name, 0)] [st.name] hinv hm).1

lemma bfsFinal_complete {adj : List (String × List String)} {s : String}
    {depths : List (String × Nat)} (hf : BfsFinal adj s depths) :
    ∀ x m, ReachN adj s x m → ∃ dx, depths.lookup x = some dx ∧ dx ≤ m := by
  intro x m h
  induction h with
  | zero => exact ⟨0, hf.startMem, Nat.le_refl 0⟩
  | succ hx hy ih =>
    rcases ih with ⟨dx, hdx, hle⟩
    rcases hf.closure _ _ hdx _ hy with ⟨dy, hdy, hdyle⟩
    exact ⟨dy, hdy, by omega⟩

lemma bfsFinal_lookup_iff {adj : List (String × List String)} {s : String}
    {depths : List (String × Nat)} (hf : BfsFinal adj s depths) (x : String) (d : Nat) :
    depths.lookup x = some d ↔ isMinDepth adj s x d := by
  constructor
  · intro h
    refine ⟨hf.sound x d h, ?_⟩
    intro m hm
    rcases bfsFinal_complete hf x m hm with ⟨dx, hdx, hle⟩
    rw [h] at hdx
    have := Option.some.inj hdx
    omega
  · rintro ⟨hr, hmin⟩
    rcases bfsFinal_complete hf x d hr with ⟨dx, hdx, hle⟩
    have hge : d ≤ dx := hmin dx (hf.sound x dx hdx)
    have : dx = d := by omega
    rw [this] at hdx
    exact hdx

lemma forall2_map_eq {A B C : Type} {R : A → B → Prop} {f : A → C} {g : B → C}
    (h : ∀ a b, R a b → g b = f a) :
    ∀ {l1 : List A} {l2 : List B}, List.Forall₂ R l1 l2 → l2.map g = l1.map f := by
  intro l1 l2 hrel
  induction hrel with
  | nil => rfl
  | cons hr hrest ih => simp only [List.map_cons, h _ _ hr, ih]

lemma addOutgoing_src {E : List VEdge} :
    ∀ (es : List VEdge) (acc : List (String × List VEdge)),
      (∀ e2 ∈ es, e2 ∈ E) →
      (∀ p ∈ acc, ∀ e2 ∈ p.2, e2 ∈ E ∧ e2.src = p.1) →
      ∀ p ∈ es.foldl addOutgoing acc, ∀ e2 ∈ p.2, e2 ∈ E ∧ e2.src = p.1 := by
  intro es
  induction es with
  | nil =>
    intro acc _ hacc
    exact hacc
  | cons e es ih =>
    intro acc hes hacc
    rw [List.foldl_cons]
    refine ih (addOutgoing acc e) (fun e2 he2 => hes e2 (List.mem_cons_of_mem e he2)) ?_
    have heE : e ∈ E := hes e (List.mem_cons_self e es)
    intro p hp e2 he2
    unfold addOutgoing at hp
    split at hp
    · exact hacc p hp e2 he2
    · split at hp
      · rcases List.mem_map.1 hp with ⟨q, hq, hqe⟩
        by_cases hqk : q.1 = e.src
        · rw [if_pos hqk] at hqe
          subst hqe
          dsimp only at he2 ⊢
          rcases List.mem_append.1 he2 with he2 | he2
          · have := hacc q hq e2 he2
            exact ⟨this.1, by rw [this.2]⟩
          · rw [List.mem_singleton] at he2
            subst he2
            exact ⟨heE, hqk.symm⟩
        · rw [if_neg hqk] at hqe
          subst hqe
          exact hacc q hq e2 he2
      · rcases List.mem_append.1 hp with hp | hp
        · exact hacc p hp e2 he2
        · rw [List.mem_singleton] at hp
          subst hp
          dsimp only at he2 ⊢
          rw [List.mem_singleton] at he2
          subst he2
          exact ⟨heE, rfl⟩

lemma firstLevel_edges {g : VGraph} {p : String × List VEdge}
    (h : p ∈ firstLevelBranching g) : ∀ e ∈ p.2, e ∈ g.edges ∧ e.src = p.1 := by
  unfold firstLevelBranching at h
  have h2 := (List.mem_filter.1 h).1
  unfold findBranchingNodes at h2
  have h3 := (List.mem_filter.1 h2).1
  exact addOutgoing_src g.edges [] (fun e2 he2 => he2) (by intro q hq; simp at hq) p h3

lemma routingEdgesFor_target {asm : Assembled} {p : String × List VEdge} {info : RoutingInfo}
    {ns : List FlowNode} (hok : registryEntryOK asm p info ns) (startName : Option String) :
    ∀ e ∈ routingEdgesFor asm.chatInputId startName asm.idMap info,
      e.target ∈ ns.map (·.id) ∨ e.target ∈ asm.idMap.map (·.2) := by
  have hA : info.routerAgentId ∈ ns.map (·.id) := registryEntryOK_agent_mem hok
  have hG : ∀ gid ∈ gateIds info.pattern, gid ∈ ns.map (·.id) :=
    registryEntryOK_gate_mem hok
  have hV : ∀ {x v : String}, asm.idMap.lookup x = some v → v ∈ asm.idMap.map (·.2) :=
    fun hxv => lookup_mem_values hxv
  have hHead : ∀ e ∈ (if asm.chatInputId.isSome ∧ startName = some info.sourceName then
        [createEdge (asm.chatInputId.getD "") info.routerAgentId none]
      else [createEdge ((asm.idMap.lookup info.sourceName).getD "") info.routerAgentId none]),
      e.target ∈ ns.map (·.id) ∨ e.target ∈ asm.idMap.map (·.2) := by
    intro e he
    split at he
    · have hee : e = createEdge (asm.chatInputId.getD "") info.routerAgentId none := by
        simpa using he
      subst hee
      rw [createEdge_target]
      exact Or.inl hA
    · have hee : e = createEdge ((asm.idMap.lookup info.sourceName).getD "")
          info.routerAgentId none := by simpa using he
      subst hee
      rw [createEdge_target]
      exact Or.inl hA
  intro e he
  unfold routingEdgesFor at he
  cases hpat : info.pattern with
  | simple crId =>
    rw [hpat] at he
    dsimp only at he
    rw [List.mem_append, List.mem_append, List.mem_append] at he
    have hcr : crId ∈ ns.map (·.id) := by
      apply hG
      rw [hpat]
      simp [gateIds]
    rcases he with ((he | he) | he) | he
    · exact hHead e (by simpa [hpat] using he)
    · have hee : e = createEdge info.routerAgentId crId none := by simpa using he
      subst hee
      rw [createEdge_target]
      exact Or.inl hcr
    · cases hr0 : info.redges.get? 0 with
      | none => rw [hr0] at he; simp at he
      | some e0 =>
        rw [hr0] at he
        dsimp only at he
        cases hlk : asm.idMap.lookup e0.dst with
        | none => rw [hlk] at he; simp at he
        | some tid =>
          rw [hlk] at he
          have hee : e = createEdgeSpecificOutput crId tid "true_result" := by simpa using he
          subst hee
          rw [createEdgeSpecificOutput_target]
          exact Or.inr (hV hlk)
    · cases hr1 : info.redges.get? 1 with
      | none => rw [hr1] at he; simp at he
      | some e1 =>
        rw [hr1] at he
        dsimp only at he
        cases hlk : asm.idMap.lookup e1.dst with
        | none => rw [hlk] at he; simp at he
        | some tid =>
          rw [hlk] at he
          have hee : e = createEdgeSpecificOutput crId tid "false_result" := by simpa using he
          subst hee
          rw [createEdgeSpecificOutput_target]
          exact Or.inr (hV hlk)
  | cascade gids =>
    rw [hpat] at he
    dsimp only at he
    rw [List.mem_append, List.mem_append] at he
    have hGg : ∀ gid ∈ gids, gid ∈ ns.map (·.id) := by
      intro gid hgid
      apply hG
      rw [hpat]
      simpa [gateIds] using hgid
    rcases he with (he | he) | he
    · exact hHead e (by simpa [hpat] using he)
    · cases hh : gids.head? with
      | none => rw [hh] at he; simp at he
      | some g0 =>
        rw [hh] at he
        have hee : e = createEdge info.routerAgentId g0 none := by simpa using he
        subst hee
        rw [createEdge_target]
        exact Or.inl (hGg g0 (List.mem_of_mem_head? hh))
    · rcases List.mem_flatMap.1 he with ⟨q, hq, hqe⟩
      rcases q with ⟨i, gid⟩
      dsimp only at hqe
      rw [List.mem_append] at hqe
      rcases hqe with hqe | hqe
      · cases hr : info.redges.get? i with
        | none => rw [hr] at hqe; simp at hqe
        | some ei =>
          rw [hr] at hqe
          dsimp only at hqe
          cases hlk : asm.idMap.lookup ei.dst with
          | none => rw [hlk] at hqe; simp at hqe
          | some tid =>
            rw [hlk] at hqe
            have hee : e = createEdgeSpecificOutput gid tid "true_result" := by
              simpa using hqe
            subst hee
            rw [createEdgeSpecificOutput_target]
            exact Or.inr (hV hlk)
      · by_cases hi : i < gids.length - 1
        · rw [if_pos hi] at hqe
          cases hnext : gids.get? (i + 1) with
          | none => rw [hnext] at hqe; simp at hqe
          | some ng =>
            rw [hnext] at hqe
            have hee : e = createEdgeSpecificOutput gid ng "false_result" := by
              simpa using hqe
            subst hee
            rw [createEdgeSpecificOutput_target]
            exact Or.inl (hGg ng (List.get?_mem hnext))
        · rw [if_neg hi] at hqe
          cases hlast : info.redges.getLast? with
          | none => rw [hlast] at hqe; simp at hqe
          | some el =>
            rw [hlast] at hqe
            dsimp only at hqe
            cases hlk : asm.idMap.lookup el.dst with
            | none => rw [hlk] at hqe; simp at hqe
            | some tid =>
              rw [hlk] at hqe
              have hee : e = createEdgeSpecificOutput gid tid "false_result" := by
                simpa using hqe
              subst hee
              rw [createEdgeSpecificOutput_target]
              exact Or.inr (hV hlk)

lemma terminalFold_src {asm : Assembled} {registry : List RoutingInfo}
    {reachable : List String} {startName : Option String} {co : String} {L : List String} :
    ∀ (ts : List String) (acc res : List FlowEdge),
      (∀ t ∈ ts, t ∈ L) →
      (∀ e ∈ acc, ∃ t ∈ L, e = createEdge t co none) →
      ts.foldlM (terminalStep asm registry reachable startName co) acc = .ok res →
      ∀ e ∈ res, ∃ t ∈ L, e = createEdge t co none := by
  intro ts
  induction ts with
  | nil =>
    intro acc res _ hacc h
    simp only [List.foldlM_nil] at h
    have : res = acc := (Except.ok.inj h).symm
    subst this
    exact hacc
  | cons t ts ih =>
    intro acc res hts hacc h
    rw [List.foldlM_cons] at h
    cases hstep : terminalStep asm registry reachable startName co acc t with
    | error msg => rw [hstep, except_bind_error] at h; exact absurd h (by simp)
    | ok acc2 =>
      rw [hstep, except_bind_ok] at h
      have hts2 : ∀ u ∈ ts, u ∈ L := fun u hu => hts u (List.mem_cons_of_mem t hu)
      have hacc2 : ∀ e ∈ acc2, ∃ u ∈ L, e = createEdge u co none := by
        rcases terminalStep_ok_cases hstep with hc | hc
        · subst hc; exact hacc
        · subst hc
          intro e he
          rw [List.mem_append] at he
          rcases he with he | he
          · exact hacc e he
          · have hee : e = createEdge t co none := by simpa using he
            exact ⟨t, hts t (List.mem_cons_self t ts), hee⟩
      exact ih acc2 res hts2 hacc2 h

lemma terminalEdges_src {g : VGraph} {asm : Assembled} {registry : List RoutingInfo}
    {edgesSoFar res : List FlowEdge}
    (h : terminalEdges g asm registry edgesSoFar = .ok res) :
    ∀ e ∈ res, ∃ co t, asm.chatOutputId = some co ∧
      t ∈ (asm.idMap.map (·.2)).filter
        (fun i => i ∉ g.edges.filterMap (fun e2 => asm.idMap.lookup e2.src)) ∧
      e = createEdge t co none := by
  unfold terminalEdges at h
  cases hco : asm.chatOutputId with
  | none =>
    rw [hco] at h
    dsimp only at h
    have : res = [] := (Except.ok.inj h).symm
    subst this
    intro e he
    exact absurd he (by simp)
  | some co =>
    rw [hco] at h
    dsimp only at h
    split at h
    · have : res = [] := (Except.ok.inj h).symm
      subst this
      intro e he
      exact absurd he (by simp)
    · intro e he
      have := terminalFold_src _ [] res (fun t ht => ht)
        (by intro e he; exact absurd he (by simp)) h e he
      rcases this with ⟨t, ht, hee⟩
      exact ⟨co, t, rfl, ht, hee⟩

lemma nodePhase_co_fresh {lib : Library} {apiKey : String} {gen : Nat → String}
    {g : VGraph} {ns : List FlowNode} {co : String}
    (hids : (((nodePhase lib apiKey gen g).flowNodes ++ ns).map (·.id)).Nodup)
    (hco : (nodePhase lib apiKey gen g).chatOutputId = some co) :
    (∀ q ∈ (nodePhase lib apiKey gen g).idMap, q.2 ≠ co) ∧
    (∀ v ∈ ns.map (·.id), v ≠ co) := by
  unfold nodePhase at hids hco ⊢
  dsimp only at hids hco ⊢
  simp only [List.map_append] at hids
  have hD1 := (List.nodup_append.1 hids).2.2
  have hids2 := hids.of_append_left
  have hD2 := (List.nodup_append.1 hids2).2.2
  have hcoC : co ∈ (coPart lib gen
      ((ciPart lib gen).1 ++ (convertedPart lib apiKey gen g (ciPart lib gen).2.2).flowNodes)
      (convertedPart lib apiKey gen g (ciPart lib gen).2.2).k).1.map (·.id) :=
    coPart_id lib gen _ _ co hco
  constructor
  · intro q hq hqc
    have hqB := convertedPart_inv lib apiKey gen g (ciPart lib gen).2.2 q hq
    rw [hqc] at hqB
    exact hD2 (List.mem_append_right _ hqB) hcoC
  · intro v hv hvc
    rw [hvc] at hv
    exact hD1 (List.mem_append_right _ hcoC) hv

/-! ## Claim theorems and supporting lemmas -/

/-- C7 (code bug): on a graph whose only edge references unknown node
names, the spec promises the edge is dropped and a complete artifact is
still produced; the converter instead aborts with an `AttributeError`
(reading the never-initialised `_routing_components` attribute in the
terminal-wiring pass, because the start node is terminal and no routing
was inserted), returning no artifact. -/
theorem malformed_edge_crash :
    convert cexLib "" cexGen "fid" gBug = .error "AttributeError: _routing_components" := by
  rfl

/-- C6 (counterexample): with an empty template library — so the
conversation node's component type is missing and no fallback applies —
the conversion does NOT abort: it returns an artifact in which the node
was silently skipped (zero nodes), contradicting the claim that a missing
template with no fallback is fatal. -/
theorem missing_template_cex :
    (convert ([] : Library) "" cexGen "fid" gC6).toOption.map
        (fun f => f.fdata.nodes.length) = some 0 := by
  rfl

/-- C9 (counterexample): pinning the node-identity hook `cexGen` but not
the flow id (the second, separate `uuid.uuid4()` site at the top of
`convert`) yields different artifacts on the same inputs, so pinning
node-identity generation alone does not make two runs identical. -/
theorem flow_id_cex :
    (convert cexLib "" cexGen "f1" gC9).toOption ≠
      (convert cexLib "" cexGen "f2" gC9).toOption := by
  decide

/-- C4 (counterexample): in `gC4` the first-declared node `A` has no
incoming edge and is not the declared start node (`B` carries `isStart`),
yet it IS converted and present in the id-map; in `gC4b` the declared
start node `B` has no incoming edge and is NOT converted (absent from the
id-map).  The orphan exemption is keyed to the first-declared node, not to
the `isStart` carrier. -/
theorem orphan_start_cex :
    ((convertIdMap cexLib "" cexGen gC4).lookup "A").isSome = true ∧
      (convertIdMap cexLib "" cexGen gC4b).lookup "B" = none := by
  decide

/-- C2 (counterexample): on `gC2` the emitted flow has 4 nodes while the
claim's count formula (with the claim's notions of orphan and of
routing-eligible branch point) predicts 7: the `isStart` carrier `Q` is
skipped as an orphan and its depth-0 branch point gets no routing
sub-graph. -/
theorem node_count_cex :
    (convert cexLib "" cexGen "fid" gC2).toOption.map (fun f => f.fdata.nodes.length)
        = some 4 ∧
      specNodeCount gC2 = 7 := by
  decide

/-- C3 (counterexample): `V` is a branch point of computed depth 0 ≤ 1 in
`gC3`, yet no routing sub-graph is compiled for it (the registry is empty),
because `V` was skipped as an orphan and is absent from the id-map; the
claimed equivalence "routing iff depth ≤ 1" fails. -/
theorem depth_routing_cex :
    (findBranchingNodes gC3.edges).lookup "V"
        = some [cexEdge "V" "U" "d1", cexEdge "V" "W" "d2"] ∧
      (calculateNodeDepths gC3.nodes gC3.edges).lookup "V" = some 0 ∧
      (convertRegistry cexLib "" cexGen gC3).toOption = some [] := by
  decide

/-- C5 (counterexample): in `gC5` the start node is itself an eligible
branch point; the claim says the entry adapter is wired to the decision
agent INSTEAD of the start node's target node, but the emitted flow
contains the edge from the entry adapter (`ChatInput-0`) to the start
node's own target node (`Agent-1`) as well. -/
theorem entry_wiring_cex :
    (convertIdMap cexLib "" cexGen gC5).lookup "start" = some "Agent-1" ∧
      (edgesOf (convert cexLib "" cexGen "fid" gC5)).get? 0
        = some (createEdge "ChatInput-0" "Agent-1" none) ∧
      (convert cexLib "" cexGen "fid" gC5).isOk = true := by
  decide

/-- C10: every edge of a successfully emitted flow references node ids that
both occur in the emitted node list — the converter never emits a dangling
edge toward a skipped orphan, an unknown source-node name, or a node whose
conversion failed. -/
theorem no_dangling_edges {lib : Library} {apiKey : String} {gen : Nat → String}
    {flowId : String} {g : VGraph} {f : Flow}
    (h : convert lib apiKey gen flowId g = .ok f) :
    ∀ e ∈ f.fdata.edges,
      e.source ∈ f.fdata.nodes.map (·.id) ∧ e.target ∈ f.fdata.nodes.map (·.id) := by
  rcases convert_ok_inv h with ⟨rr, e4, hrp, hte, hnodes, hedges, _, _⟩
  have hreg := (routingPhase_inv hrp).1
  intro e he
  rw [hedges] at he
  rw [hnodes]
  rw [List.mem_append, List.mem_append, List.mem_append] at he
  rcases he with ((he | he) | he) | he
  · have := chatInputStartEdges_wf lib apiKey gen g e he
    simp only [List.map_append, List.mem_append]
    exact ⟨Or.inl this.1, Or.inl this.2⟩
  · have hd := directEdges_mem_values g (nodePhase lib apiKey gen g).idMap
      ((firstLevelBranching g).map (·.1)) e he
    have hs : e.source ∈ (nodePhase lib apiKey gen g).flowNodes.map (·.id) := by
      rcases List.mem_map.1 hd.1 with ⟨q, hq, hqe⟩
      exact hqe ▸ nodePhase_idMap_mem lib apiKey gen g q hq
    have ht : e.target ∈ (nodePhase lib apiKey gen g).flowNodes.map (·.id) := by
      rcases List.mem_map.1 hd.2 with ⟨q, hq, hqe⟩
      exact hqe ▸ nodePhase_idMap_mem lib apiKey gen g q hq
    simp only [List.map_append, List.mem_append]
    exact ⟨Or.inl hs, Or.inl ht⟩
  · rcases List.mem_flatMap.1 he with ⟨info, hinfo, hein⟩
    rcases forall2_mem_right hreg hinfo with ⟨p, _, hok⟩
    exact routingEdgesFor_wf hok (nodePhase_chatInput_mem lib apiKey gen g)
      (nodePhase_idMap_mem lib apiKey gen g) (routeStartName g) e hein
  · rcases terminalEdges_wf hte e he with ⟨co, t, hco, htmem, hee⟩
    subst hee
    rw [createEdge_source, createEdge_target]
    have hs : t ∈ (nodePhase lib apiKey gen g).flowNodes.map (·.id) := by
      rcases List.mem_map.1 htmem with ⟨q, hq, hqe⟩
      exact hqe ▸ nodePhase_idMap_mem lib apiKey gen g q hq
    have ht : co ∈ (nodePhase lib apiKey gen g).flowNodes.map (·.id) :=
      nodePhase_chatOutput_mem lib apiKey gen g co hco
    simp only [List.map_append, List.mem_append]
    exact ⟨Or.inl hs, Or.inl ht⟩

/-- C10 witness: the hypotheses of `no_dangling_edges` hold at a concrete
conversion (`gC5` with the full template library), and the conclusion is
obtained by applying the theorem there. -/
theorem no_dangling_edges_witness :
    ∃ f, convert cexLib "key" cexGen "flow" gC5 = .ok f ∧
      ∀ e ∈ f.fdata.edges,
        e.source ∈ f.fdata.nodes.map (·.id) ∧ e.target ∈ f.fdata.nodes.map (·.id) := by
  cases hc : convert cexLib "key" cexGen "flow" gC5 with
  | error m =>
    have hok : (convert cexLib "key" cexGen "flow" gC5).isOk = true := by decide
    rw [hc] at hok
    exact absurd hok (by simp [Except.isOk, Except.toBool])
  | ok f => exact ⟨f, rfl, no_dangling_edges hc⟩

/-- C8: in consolidation mode the generated system prompt is exactly the
fixed header, then one section per source node in declaration order — name
line, starting-message line only for the `isStart` node with a non-empty
first message, instruction line when the raw prompt is non-empty, one
variable line per extraction variable (with an `(Options: ...)` suffix
exactly when the variable has a non-empty enum), and the transition lines
in edge declaration order or the end-of-conversation marker — then the
fixed footer, all joined with newlines.  `specNodeSection` is the
spec-side rendering; `buildSystemPrompt` is the code-side accumulator. -/
theorem prompt_sections (g : VGraph) :
    buildSystemPrompt g = String.intercalate "
"
      (promptHeader ++ g.nodes.flatMap (specNodeSection g.edges) ++ promptFooter) := by
  unfold buildSystemPrompt
  rw [foldl_promptStep, List.append_assoc]

/-- C9 (amended): with the node-identity generation hook pinned, two runs of
the converter on the same source graph and template library produce
identical results except for the flow id field, which is drawn outside the
hook: the name, description, nodes and edges of the emitted flow do not
depend on the flow id. -/
theorem deterministic_up_to_flow_id (lib : Library) (apiKey : String) (gen : Nat → String)
    (g : VGraph) (fid1 fid2 : String) :
    (convert lib apiKey gen fid1 g).map (fun f => (f.fname, f.fdescr, f.fdata))
      = (convert lib apiKey gen fid2 g).map (fun f => (f.fname, f.fdescr, f.fdata)) := by
  rw [convert_unfold lib apiKey gen fid1 g, convert_unfold lib apiKey gen fid2 g]
  cases hrp : routingPhase lib apiKey gen (nodePhase lib apiKey gen g)
      (firstLevelBranching g) with
  | error m => rfl
  | ok rr =>
    rw [except_bind_ok, except_bind_ok]
    cases hte : terminalEdges g (nodePhase lib apiKey gen g) rr.registry
        (chatInputStartEdges g (nodePhase lib apiKey gen g)
          ++ directEdges g (nodePhase lib apiKey gen g).idMap
              ((firstLevelBranching g).map (·.1))
          ++ rr.registry.flatMap (routingEdgesFor (nodePhase lib apiKey gen g).chatInputId
              (routeStartName g) (nodePhase lib apiKey gen g).idMap)) with
    | error m => rfl
    | ok e4 => rfl

/-- C6 (amended): a missing template is only fatal on the routing path —
when the decision-agent template is absent from the library and the graph
has a routing-eligible branch point whose source node was converted, the
whole conversion aborts with an error and no artifact is returned.
(Per-node template misses outside this path are caught and the node is
silently skipped; see the counterexample.) -/
theorem missing_agent_fatal {lib : Library} {apiKey : String} {gen : Nat → String}
    {flowId : String} {g : VGraph} {p : String × List VEdge}
    (hA : libHas lib "Agent" = false) (hp : p ∈ firstLevelBranching g)
    (hm : ((nodePhase lib apiKey gen g).idMap.lookup p.1).isSome = true) :
    ∃ m, convert lib apiKey gen flowId g = .error m := by
  rcases routingFold_error hA (nodePhase_idMap_mem lib apiKey gen g)
      (firstLevelBranching g) ⟨[], [], (nodePhase lib apiKey gen g).k⟩ ⟨p, hp, hm⟩ with
    ⟨m, hfold⟩
  refine ⟨m, ?_⟩
  rw [convert_unfold]
  have hrp : routingPhase lib apiKey gen (nodePhase lib apiKey gen g)
      (firstLevelBranching g) = .error m := hfold
  rw [hrp]
  rfl

/-- C6 witness: the hypotheses of `missing_agent_fatal` hold at a concrete
input — the library `cexLibNA` lacks the decision-agent template, `gC5`
has the routing-eligible branch point `start`, and its source is mapped —
and the conversion indeed aborts. -/
theorem missing_agent_fatal_witness :
    libHas cexLibNA "Agent" = false ∧
    ("start", [cexEdge "start" "billing" "user wants billing",
               cexEdge "start" "support" "user wants support"]) ∈ firstLevelBranching gC5 ∧
    (∃ m, convert cexLibNA "" cexGen "fid" gC5 = .error m) :=
  ⟨by decide, by decide,
    missing_agent_fatal (by decide)
      (by decide :
        ("start", [cexEdge "start" "billing" "user wants billing",
                   cexEdge "start" "support" "user wants support"])
          ∈ firstLevelBranching gC5)
      (by decide)⟩

/-- C4 (amended): with a non-empty template library, a source node name is
present in the id-map exactly when some source node carries it and it
either has an incoming edge or is the name of the FIRST-DECLARED node: the
orphan exemption is keyed to declaration order, not to the `isStart`
flag. -/
theorem orphan_skip_amended {lib : Library} (hlib : lib ≠ []) (apiKey : String)
    (gen : Nat → String) (g : VGraph) (name : String) :
    (((convertIdMap lib apiKey gen g).lookup name).isSome = true)
      ↔ (name ∈ g.nodes.map (·.name) ∧
         (name ∈ g.edges.map (·.dst) ∨ g.nodes.head?.map (·.name) = some name)) := by
  unfold convertIdMap nodePhase
  dsimp only
  unfold convertedPart
  rw [foldl_nodeStep_lookup hlib]
  constructor
  · rintro (h | ⟨q, hq, hqn, hcond⟩)
    · simp at h
    · refine ⟨?_, hcond⟩
      have hqm : q.2 ∈ g.nodes := by
        rcases q with ⟨i, node⟩
        exact List.get?_mem (List.mem_enum_iff_get?.1 hq)
      exact List.mem_map.2 ⟨q.2, hqm, hqn⟩
  · rintro ⟨hn, hcond⟩
    right
    rcases List.mem_map.1 hn with ⟨node, hnode, hname⟩
    rcases List.mem_iff_get?.1 hnode with ⟨i, hget⟩
    exact ⟨(i, node), List.mem_enum_iff_get?.2 hget, hname, hcond⟩

/-- C4 witness: the hypotheses of `orphan_skip_amended` hold at a concrete
input (`cexLib` is non-empty) and the characterization holds for node `A`
of `gC4`. -/
theorem orphan_skip_amended_witness :
    cexLib ≠ [] ∧
    ((((convertIdMap cexLib "" cexGen gC4).lookup "A").isSome = true) ↔
      ("A" ∈ gC4.nodes.map (fun n => n.name) ∧
       ("A" ∈ gC4.edges.map (fun e => e.dst) ∨
        gC4.nodes.head?.map (fun n => n.name) = some "A"))) :=
  ⟨by decide, orphan_skip_amended (by decide) "" cexGen gC4 "A"⟩

/-- C5 (amended): when the declared start node is itself a routed branch
point, the entry adapter is wired BOTH to the start node\x27s own target
node and to the branch point\x27s decision agent (the agent-directed edge
is appended in addition to, not instead of, the direct edge), and the
start node\x27s target node is never connected to the exit adapter: as a
branch source it has outgoing mapped edges, so the terminal pass skips
it, and no other pass emits an edge into the exit adapter; when the start
node is not a routed branch point the entry adapter is wired to the start
node\x27s target node. -/
theorem entry_wiring_amended {lib : Library} {apiKey : String} {gen : Nat → String}
    {flowId : String} {g : VGraph} {f : Flow} {ci sn sid : String}
    (h : convert lib apiKey gen flowId g = .ok f)
    (hids : (f.fdata.nodes.map (·.id)).Nodup)
    (hci : (nodePhase lib apiKey gen g).chatInputId = some ci)
    (hsn : routeStartName g = some sn)
    (hsid : (nodePhase lib apiKey gen g).idMap.lookup sn = some sid) :
    createEdge ci sid none ∈ f.fdata.edges ∧
    (∀ info ∈ (convertRegistry lib apiKey gen g).toOption.getD [],
      info.sourceName = sn → createEdge ci info.routerAgentId none ∈ f.fdata.edges) ∧
    (∀ info ∈ (convertRegistry lib apiKey gen g).toOption.getD [],
      info.sourceName = sn →
      ∀ co, (nodePhase lib apiKey gen g).chatOutputId = some co →
      ∀ e ∈ f.fdata.edges, ¬ (e.source = sid ∧ e.target = co)) := by
  rcases convert_ok_inv h with ⟨rr, e4, hrp, hte, hnodes, hedges, _, _⟩
  have hreg : (convertRegistry lib apiKey gen g).toOption.getD [] = rr.registry := by
    unfold convertRegistry
    rw [hrp]
    rfl
  cases hn : g.nodes with
  | nil =>
    unfold routeStartName at hsn
    rw [hn] at hsn
    cases hsn
  | cons n0 rest =>
    have hsn2 : sn = (((n0 :: rest).find? (fun x => x.isStart)).getD n0).name := by
      unfold routeStartName at hsn
      rw [hn] at hsn
      dsimp only at hsn
      exact (Option.some.inj hsn).symm
    have hciEq : chatInputStartEdges g (nodePhase lib apiKey gen g)
        = [createEdge ci sid none] := by
      unfold chatInputStartEdges
      rw [hci]
      dsimp only
      rw [hn]
      dsimp only
      rw [← hsn2, hsid]
    refine ⟨?_, ?_, ?_⟩
    · rw [hedges]
      simp only [List.mem_append]
      refine Or.inl (Or.inl (Or.inl ?_))
      rw [hciEq]
      simp
    · intro info hinfo hname
      rw [hreg] at hinfo
      rw [hedges]
      simp only [List.mem_append]
      refine Or.inl (Or.inr (List.mem_flatMap.2 ⟨info, hinfo, ?_⟩))
      have hcond : (nodePhase lib apiKey gen g).chatInputId.isSome = true ∧
          routeStartName g = some info.sourceName := ⟨by rw [hci]; rfl, by rw [hsn, hname]⟩
      unfold routingEdgesFor
      cases hpat : info.pattern with
      | simple crId =>
        dsimp only
        rw [if_pos hcond, hci]
        simp
      | cascade gids =>
        dsimp only
        rw [if_pos hcond, hci]
        simp
    · intro info hinfo hname co hcoid e he hcontra
      rw [hreg] at hinfo
      rw [hnodes] at hids
      rcases nodePhase_co_fresh hids hcoid with ⟨hfreshMap, hfreshNew⟩
      have hsidB : sid ≠ co := hfreshMap (sn, sid) (mem_of_lookup_eq_some hsid)
      rcases forall2_mem_right (routingPhase_inv hrp).1 hinfo with ⟨p, hp, hok⟩
      have hpsn : p.1 = sn := by rw [← hok.sname, hname]
      have hpfl : p ∈ firstLevelBranching g := List.mem_of_mem_filter hp
      have hpne : p.2 ≠ [] := by
        have h2 := mem_firstLevel_len hpfl
        intro hcon
        rw [hcon] at h2
        simp at h2
      rcases List.exists_mem_of_ne_nil _ hpne with ⟨e0, he0⟩
      rcases firstLevel_edges hpfl e0 he0 with ⟨he0E, he0src⟩
      have hsidFrom : sid ∈ g.edges.filterMap
          (fun e2 => (nodePhase lib apiKey gen g).idMap.lookup e2.src) :=
        List.mem_filterMap.2 ⟨e0, he0E, by rw [he0src, hpsn, hsid]⟩
      rw [hedges] at he
      simp only [List.mem_append] at he
      rcases he with ((he | he) | he) | he
      · rw [hciEq, List.mem_singleton] at he
        subst he
        rw [createEdge_target] at hcontra
        exact hsidB hcontra.2
      · have h2 := (directEdges_mem_values g (nodePhase lib apiKey gen g).idMap
            ((firstLevelBranching g).map (·.1)) e he).2
        rcases List.mem_map.1 h2 with ⟨q, hq, hqe⟩
        have h3 := hfreshMap q hq
        rw [hqe] at h3
        exact h3 hcontra.2
      · rcases List.mem_flatMap.1 he with ⟨info2, hinfo2, hein⟩
        rcases forall2_mem_right (routingPhase_inv hrp).1 hinfo2 with ⟨p2, hp2, hok2⟩
        rcases routingEdgesFor_target hok2 (routeStartName g) e hein with ht | ht
        · exact hfreshNew e.target ht hcontra.2
        · rcases List.mem_map.1 ht with ⟨q, hq, hqe⟩
          have h3 := hfreshMap q hq
          rw [hqe] at h3
          exact h3 hcontra.2
      · rcases terminalEdges_src hte e he with ⟨co2, t, hco2, htf, hee⟩
        subst hee
        rw [createEdge_source] at hcontra
        have htnot := (List.mem_filter.1 htf).2
        rw [hcontra.1] at htnot
        simp only [decide_eq_true_eq] at htnot
        exact htnot hsidFrom

/-- C5 witness: the hypotheses of `entry_wiring_amended` hold at the
concrete scenario `gC5` (start node is a 2-way branch point, all emitted
node ids distinct): both entry edges are emitted and the start target is
never wired into the exit adapter. -/
theorem entry_wiring_amended_witness :
    ∃ f, convert cexLib "" cexGen "fid" gC5 = .ok f ∧
      ((f.fdata.nodes.map (·.id)).Nodup ∧
       (nodePhase cexLib "" cexGen gC5).chatInputId = some "ChatInput-0" ∧
       routeStartName gC5 = some "start" ∧
       (nodePhase cexLib "" cexGen gC5).idMap.lookup "start" = some "Agent-1") ∧
      (createEdge "ChatInput-0" "Agent-1" none ∈ f.fdata.edges ∧
       (∀ info ∈ (convertRegistry cexLib "" cexGen gC5).toOption.getD [],
         info.sourceName = "start" →
           createEdge "ChatInput-0" info.routerAgentId none ∈ f.fdata.edges) ∧
       (∀ info ∈ (convertRegistry cexLib "" cexGen gC5).toOption.getD [],
         info.sourceName = "start" →
         ∀ co, (nodePhase cexLib "" cexGen gC5).chatOutputId = some co →
         ∀ e ∈ f.fdata.edges, ¬ (e.source = "Agent-1" ∧ e.target = co))) := by
  cases hc : convert cexLib "" cexGen "fid" gC5 with
  | error m =>
    have hok : (convert cexLib "" cexGen "fid" gC5).isOk = true := by decide
    rw [hc] at hok
    exact absurd hok (by simp [Except.isOk, Except.toBool])
  | ok f =>
    have hids : (f.fdata.nodes.map (·.id)).Nodup := by
      have h2 : ((nodesOf (convert cexLib "" cexGen "fid" gC5)).map (·.id)).Nodup := by
        decide
      rw [hc] at h2
      simpa [nodesOf] using h2
    exact ⟨f, rfl, ⟨hids, by decide, by decide, by decide⟩,
      entry_wiring_amended hc hids (by decide) (by decide) (by decide)⟩

/-- C2 (amended): with a non-empty template library, the emitted flow has
one node per source node that survives the orphan filter (incoming edge,
or FIRST-DECLARED — not the `isStart` carrier), one entry adapter exactly
when the entry template exists, one exit adapter exactly when the exit
template exists, and, for every first-level (depth at most 1) branch point
whose source is in the id-map with branch-width k, exactly k routing nodes
(one decision agent plus k-1 gates); and no other nodes. -/
theorem node_count_amended {lib : Library} {apiKey : String} {gen : Nat → String}
    {flowId : String} {g : VGraph} {f : Flow} (hlib : lib ≠ [])
    (h : convert lib apiKey gen flowId g = .ok f) :
    f.fdata.nodes.length =
      (if libHas lib "ChatInput" = true then 1 else 0)
      + (g.nodes.filter (fun n => decide (n.name ∈ g.edges.map (·.dst)
          ∨ g.nodes.head?.map (·.name) = some n.name))).length
      + (if libHas lib "ChatOutput" = true then 1 else 0)
      + (((firstLevelBranching g).filter
            (fun p => ((convertIdMap lib apiKey gen g).lookup p.1).isSome)).map
          (fun p => p.2.length - 1 + 1)).sum := by
  rcases convert_ok_inv h with ⟨rr, e4, hrp, hte, hnodes, hedges, _, _⟩
  rw [hnodes, List.length_append]
  rw [(routingPhase_inv hrp).2]
  have hfn : (nodePhase lib apiKey gen g).flowNodes.length
      = (if libHas lib "ChatInput" = true then 1 else 0)
        + (g.nodes.filter (fun n => decide (n.name ∈ g.edges.map (·.dst)
            ∨ g.nodes.head?.map (·.name) = some n.name))).length
        + (if libHas lib "ChatOutput" = true then 1 else 0) := by
    unfold nodePhase
    dsimp only
    rw [List.length_append, List.length_append]
    rw [ciPart_len, coPart_len, convertedPart_len hlib]
  rw [hfn]
  have hid : convertIdMap lib apiKey gen g = (nodePhase lib apiKey gen g).idMap := rfl
  rw [hid]

/-- C2 witness: the hypotheses of `node_count_amended` hold at the concrete
scenario `gC5` with the full library, and the count formula holds for the
emitted flow. -/
theorem node_count_amended_witness :
    ∃ f, convert cexLib "" cexGen "fid" gC5 = .ok f ∧ cexLib ≠ [] ∧
      f.fdata.nodes.length =
        (if libHas cexLib "ChatInput" = true then 1 else 0)
        + (gC5.nodes.filter (fun n => decide (n.name ∈ gC5.edges.map (·.dst)
            ∨ gC5.nodes.head?.map (·.name) = some n.name))).length
        + (if libHas cexLib "ChatOutput" = true then 1 else 0)
        + (((firstLevelBranching gC5).filter
              (fun p => ((convertIdMap cexLib "" cexGen gC5).lookup p.1).isSome)).map
            (fun p => p.2.length - 1 + 1)).sum := by
  cases hc : convert cexLib "" cexGen "fid" gC5 with
  | error m =>
    have hok : (convert cexLib "" cexGen "fid" gC5).isOk = true := by decide
    rw [hc] at hok
    exact absurd hok (by simp [Except.isOk, Except.toBool])
  | ok f =>
    exact ⟨f, rfl, by decide, node_count_amended (by decide) hc⟩

/-- C3 (amended): the depth computation returns, for every node reachable
from the start node, the minimum number of edges on any path from it
(start node mapped to 0) and contains no entry for unreachable nodes;
and a branch point receives a routing sub-graph if and only if its depth
is at most 1 AND its source node was converted (present in the id-map) —
the claim\x27s pure depth criterion misses the id-map condition. -/
theorem depth_routing_amended {lib : Library} {apiKey : String} {gen : Nat → String}
    {g : VGraph} {rs : List RoutingInfo} {st : VNode}
    (hs : startNodeOf g.nodes = some st)
    (h : convertRegistry lib apiKey gen g = .ok rs) :
    (∀ x d, (calculateNodeDepths g.nodes g.edges).lookup x = some d ↔
        isMinDepth (buildAdjacency g.edges) st.name x d) ∧
    rs.map (·.sourceName)
      = ((firstLevelBranching g).filter
          (fun p => ((convertIdMap lib apiKey gen g).lookup p.1).isSome)).map (·.1) := by
  constructor
  · exact bfsFinal_lookup_iff (calculateNodeDepths_final hs)
  · unfold convertRegistry at h
    cases hrp : routingPhase lib apiKey gen (nodePhase lib apiKey gen g)
        (firstLevelBranching g) with
    | error m =>
      rw [hrp] at h
      cases h
    | ok rr =>
      rw [hrp] at h
      have hrs : rr.registry = rs := Option.some.inj (congrArg Except.toOption h)
      subst hrs
      exact forall2_map_eq (fun p info hok => hok.sname) (routingPhase_inv hrp).1

/-- C3 witness: the hypotheses of `depth_routing_amended` hold at the
concrete graph `gC3` (start node `V`), whose registry is empty because `V`
is skipped as an orphan despite having depth 0. -/
theorem depth_routing_amended_witness :
    startNodeOf gC3.nodes = some (cexNode "V" true "pv") ∧
    ((∀ x d, (calculateNodeDepths gC3.nodes gC3.edges).lookup x = some d ↔
        isMinDepth (buildAdjacency gC3.edges) (cexNode "V" true "pv").name x d) ∧
      ([] : List RoutingInfo).map (·.sourceName)
        = ((firstLevelBranching gC3).filter
            (fun p => ((convertIdMap cexLib "" cexGen gC3).lookup p.1).isSome)).map (·.1)) :=
  ⟨by decide, depth_routing_amended (by decide) (by rfl)⟩

/-- C1: every routing-eligible branch point with k at least 3 outgoing
edges that received a routing entry is compiled as one decision-agent node
plus a cascade of exactly k-1 decision gates; gate j (1-indexed) is a
ConditionalRouter configured for a case-insensitive contains-match on the
digit string of j, wires its true output to the target of the j-th
outgoing edge in declaration order, its false output to gate j+1 while one
exists, and the last gate wires its false output to the target of edge k
(the implicit default, matched by no gate). -/
theorem cascade_structure {lib : Library} {apiKey : String} {gen : Nat → String}
    {flowId : String} {g : VGraph} {f : Flow} {info : RoutingInfo}
    (h : convert lib apiKey gen flowId g = .ok f)
    (hinfo : info ∈ (convertRegistry lib apiKey gen g).toOption.getD [])
    (hk : 3 ≤ info.numBranches) :
    ∃ gids, info.pattern = .cascade gids ∧ gids.length = info.numBranches - 1 ∧
      info.redges.length = info.numBranches ∧
      (∃ ra, ra ∈ f.fdata.nodes ∧ ra.id = info.routerAgentId ∧ ra.ctype = "Agent") ∧
      (∀ j gj, gids.get? j = some gj →
        ∃ gnode, gnode ∈ f.fdata.nodes ∧ gnode.id = gj ∧ gateSpec gnode (j + 1)) ∧
      (∀ g0, gids.head? = some g0 →
        createEdge info.routerAgentId g0 none ∈ f.fdata.edges) ∧
      (∀ j gj ej tid, gids.get? j = some gj → info.redges.get? j = some ej →
        (convertIdMap lib apiKey gen g).lookup ej.dst = some tid →
        createEdgeSpecificOutput gj tid "true_result" ∈ f.fdata.edges) ∧
      (∀ j gj gj2, gids.get? j = some gj → gids.get? (j + 1) = some gj2 →
        createEdgeSpecificOutput gj gj2 "false_result" ∈ f.fdata.edges) ∧
      (∀ gl el tid, gids.get? (gids.length - 1) = some gl →
        info.redges.getLast? = some el →
        (convertIdMap lib apiKey gen g).lookup el.dst = some tid →
        createEdgeSpecificOutput gl tid "false_result" ∈ f.fdata.edges) := by
  rcases convert_ok_inv h with ⟨rr, e4, hrp, hte, hnodes, hedges, _, _⟩
  have hreg2 : (convertRegistry lib apiKey gen g).toOption.getD [] = rr.registry := by
    unfold convertRegistry
    rw [hrp]
    rfl
  rw [hreg2] at hinfo
  rcases forall2_mem_right (routingPhase_inv hrp).1 hinfo with ⟨p, hpmem, hok⟩
  have hlen : p.2.length = info.numBranches := hok.nb.symm
  rcases hok.cascade2 (by omega) with ⟨gids, hpat⟩
  have hglen : gids.length = info.numBranches - 1 := by
    have := hok.glen
    rw [hpat] at this
    simp only [gateIds] at this
    omega
  have hmem3 : ∀ e, e ∈ routingEdgesFor (nodePhase lib apiKey gen g).chatInputId
      (routeStartName g) (nodePhase lib apiKey gen g).idMap info → e ∈ f.fdata.edges := by
    intro e he
    rw [hedges]
    simp only [List.mem_append]
    exact Or.inl (Or.inr (List.mem_flatMap.2 ⟨info, hinfo, he⟩))
  refine ⟨gids, hpat, hglen, by rw [hok.redges]; omega, ?_, ?_, ?_, ?_, ?_, ?_⟩
  · rcases hok.agent with ⟨ra, hra, hraid, hract⟩
    exact ⟨ra, by rw [hnodes]; exact List.mem_append_right _ hra, hraid, hract⟩
  · intro j gj hgj
    have hj : j < gids.length := (List.get?_eq_some.1 hgj).1
    have hj2 : j < (gateIds info.pattern).length := by
      rw [hpat]
      simpa [gateIds] using hj
    rcases hok.gatesOK j hj2 with ⟨gnode, hgn, hgnid, hgsp⟩
    refine ⟨gnode, by rw [hnodes]; exact List.mem_append_right _ hgn, ?_, hgsp⟩
    rw [hgnid]
    have : (gateIds info.pattern).get ⟨j, hj2⟩ = gj := by
      have h2 : (gateIds info.pattern).get? j = some gj := by
        rw [hpat]
        simpa [gateIds] using hgj
      rw [List.get?_eq_get hj2] at h2
      exact Option.some.inj h2
    exact this
  · intro g0 hg0
    apply hmem3
    unfold routingEdgesFor
    rw [hpat]
    dsimp only
    rw [hg0]
    simp only [List.mem_append]
    exact Or.inl (Or.inr (by simp))
  · intro j gj ej tid hgj hej htid
    apply hmem3
    unfold routingEdgesFor
    rw [hpat]
    dsimp only
    simp only [List.mem_append]
    refine Or.inr (List.mem_flatMap.2 ⟨(j, gj), List.mem_enum_iff_get?.2 hgj, ?_⟩)
    dsimp only
    rw [hej]
    dsimp only
    have htid2 : (nodePhase lib apiKey gen g).idMap.lookup ej.dst = some tid := htid
    rw [htid2]
    simp
  · intro j gj gj2 hgj hgj2
    apply hmem3
    unfold routingEdgesFor
    rw [hpat]
    dsimp only
    simp only [List.mem_append]
    refine Or.inr (List.mem_flatMap.2 ⟨(j, gj), List.mem_enum_iff_get?.2 hgj, ?_⟩)
    dsimp only
    have hj2 : j + 1 < gids.length := (List.get?_eq_some.1 hgj2).1
    rw [if_pos (by omega : j < gids.length - 1), hgj2]
    cases hcase : info.redges.get? j with
    | none => simp
    | some ej =>
      cases hlk : (nodePhase lib apiKey gen g).idMap.lookup ej.dst with
      | none => simp
      | some tid => simp
  · intro gl el tid hgl hel htid
    apply hmem3
    unfold routingEdgesFor
    rw [hpat]
    dsimp only
    simp only [List.mem_append]
    refine Or.inr (List.mem_flatMap.2
      ⟨(gids.length - 1, gl), List.mem_enum_iff_get?.2 hgl, ?_⟩)
    dsimp only
    rw [if_neg (by omega : ¬ gids.length - 1 < gids.length - 1), hel]
    dsimp only
    have htid2 : (nodePhase lib apiKey gen g).idMap.lookup el.dst = some tid := htid
    rw [htid2]
    cases hcase : info.redges.get? (gids.length - 1) with
    | none => simp
    | some ej =>
      cases hlk : (nodePhase lib apiKey gen g).idMap.lookup ej.dst with
      | none => simp
      | some tid2 => simp

/-- C1 witness: the hypotheses of `cascade_structure` hold at the concrete
graph `gC1` (a start node with three outgoing edges), and the cascade
structure follows by applying the theorem there. -/
theorem cascade_structure_witness :
    ∃ f info, convert cexLib "" cexGen "fid" gC1 = .ok f ∧
      info ∈ (convertRegistry cexLib "" cexGen gC1).toOption.getD [] ∧
      3 ≤ info.numBranches ∧
      (∃ gids, info.pattern = .cascade gids ∧ gids.length = info.numBranches - 1 ∧
        info.redges.length = info.numBranches ∧
        (∃ ra, ra ∈ f.fdata.nodes ∧ ra.id = info.routerAgentId ∧ ra.ctype = "Agent") ∧
        (∀ j gj, gids.get? j = some gj →
          ∃ gnode, gnode ∈ f.fdata.nodes ∧ gnode.id = gj ∧ gateSpec gnode (j + 1)) ∧
        (∀ g0, gids.head? = some g0 →
          createEdge info.routerAgentId g0 none ∈ f.fdata.edges) ∧
        (∀ j gj ej tid, gids.get? j = some gj → info.redges.get? j = some ej →
          (convertIdMap cexLib "" cexGen gC1).lookup ej.dst = some tid →
          createEdgeSpecificOutput gj tid "true_result" ∈ f.fdata.edges) ∧
        (∀ j gj gj2, gids.get? j = some gj → gids.get? (j + 1) = some gj2 →
          createEdgeSpecificOutput gj gj2 "false_result" ∈ f.fdata.edges) ∧
        (∀ gl el tid, gids.get? (gids.length - 1) = some gl →
          info.redges.getLast? = some el →
          (convertIdMap cexLib "" cexGen gC1).lookup el.dst = some tid →
          createEdgeSpecificOutput gl tid "false_result" ∈ f.fdata.edges)) := by
  cases hc : convert cexLib "" cexGen "fid" gC1 with
  | error m =>
    have hok : (convert cexLib "" cexGen "fid" gC1).isOk = true := by decide
    rw [hc] at hok
    exact absurd hok (by simp [Except.isOk, Except.toBool])
  | ok f =>
    have hne : (convertRegistry cexLib "" cexGen gC1).toOption.getD []
        ≠ ([] : List RoutingInfo) := by decide
    rcases List.exists_mem_of_ne_nil _ hne with ⟨info, hinfo⟩
    have h3 : ∀ i ∈ (convertRegistry cexLib "" cexGen gC1).toOption.getD [],
        3 ≤ i.numBranches := by decide
    exact ⟨f, info, rfl, hinfo, h3 info hinfo,
      cascade_structure hc hinfo (h3 info hinfo)⟩

end Vapi
